import Mathlib

/-!
Verification of the Kazhutha card-game session state machine against its
specification.  The definitions below are a shallow embedding of the
`GameSession` class and its helpers from `src/main.py`; theorems at the end of
the file settle the specification claims.

Modelling conventions:
* Python `dict` from player name to hand is an association list
  `List (String × List Card)`; real sessions have unique keys, and every
  access goes through the first matching key, exactly as a `dict` behaves.
* The random shuffle in `_create_deck` is modelled by passing the shuffled
  deck as a parameter; claims that depend on dealing assume the deck is a
  permutation of the fresh 52-card deck.
* Methods that raise or return error tuples are modelled as functions
  returning the error value together with the state as mutated so far
  (failure paths in the source return before mutating, except where noted).
* The purely cosmetic `last_action` log line is omitted.
-/

namespace Kazhutha

/-- The four suits, in Python declaration order (`class Suit`). -/
inductive Suit where
  | HEARTS
  | DIAMONDS
  | CLUBS
  | SPADES
deriving DecidableEq, Repr

/-- `Suit.value`: the string value of the enum member. -/
def Suit.value : Suit → String
  | .HEARTS => "HEARTS"
  | .DIAMONDS => "DIAMONDS"
  | .CLUBS => "CLUBS"
  | .SPADES => "SPADES"

/-- The thirteen ranks, in Python declaration order (`class Rank`). -/
inductive Rank where
  | ACE
  | KING
  | QUEEN
  | JACK
  | TEN
  | NINE
  | EIGHT
  | SEVEN
  | SIX
  | FIVE
  | FOUR
  | THREE
  | TWO
deriving DecidableEq, Repr

/-- A playing card (`@dataclass class Card`), equality by suit and rank. -/
structure Card where
  suit : Suit
  rank : Rank
deriving DecidableEq, Repr

/-- `Card.value`: the numeric rank value (ACE high = 14). -/
def Card.value (c : Card) : Nat :=
  match c.rank with
  | .ACE => 14
  | .KING => 13
  | .QUEEN => 12
  | .JACK => 11
  | .TEN => 10
  | .NINE => 9
  | .EIGHT => 8
  | .SEVEN => 7
  | .SIX => 6
  | .FIVE => 5
  | .FOUR => 4
  | .THREE => 3
  | .TWO => 2

/-- The Ace of Spades, the card that must open the game. -/
def ace_of_spades : Card := ⟨Suit.SPADES, Rank.ACE⟩

/-- Hand-sorting order: the Python key `(c.suit.value, -c.value)` compared
lexicographically (suit strings ascending, values descending). -/
def hand_le (a b : Card) : Prop :=
  a.suit.value < b.suit.value ∨ (a.suit.value = b.suit.value ∧ b.value ≤ a.value)

instance : DecidableRel hand_le := fun a b =>
  inferInstanceAs (Decidable (a.suit.value < b.suit.value ∨
    (a.suit.value = b.suit.value ∧ b.value ≤ a.value)))

/-- `hand.sort(key=lambda c: (c.suit.value, -c.value))`. -/
def sort_hand (h : List Card) : List Card := h.insertionSort hand_le

/-- Python iteration order of `Suit`. -/
def all_suits : List Suit := [.HEARTS, .DIAMONDS, .CLUBS, .SPADES]

/-- Python iteration order of `Rank`. -/
def all_ranks : List Rank :=
  [.ACE, .KING, .QUEEN, .JACK, .TEN, .NINE, .EIGHT, .SEVEN, .SIX, .FIVE,
   .FOUR, .THREE, .TWO]

/-- The deck built by `_create_deck` before shuffling: one card per
(suit, rank) pair, suit-major. -/
def fresh_deck : List Card :=
  all_suits.flatMap (fun s => all_ranks.map (fun r => ⟨s, r⟩))

/-- First-match lookup in the players association list (`self.players[name]`;
the default `[]` is returned only for keys a real `dict` access would raise on). -/
def lookup_hand (ps : List (String × List Card)) (n : String) : List Card :=
  match ps.find? (fun p => p.1 == n) with
  | some p => p.2
  | none => []

/-- First-match update of the players association list
(`self.players[name] = h`; appends when the key is absent, as a `dict` would). -/
def set_hand : List (String × List Card) → String → List Card →
    List (String × List Card)
  | [], n, h => [(n, h)]
  | p :: ps, n, h => if p.1 = n then (n, h) :: ps else p :: set_hand ps n h

/-- The `GameSession` state (fields of `__init__`, minus the cosmetic
`last_action`). -/
structure GameSession where
  game_id : String
  players : List (String × List Card)
  player_order : List String
  active_players : List String
  current_player_idx : Nat
  current_pile : List (String × Card)
  current_suit : Option Suit
  original_suit : Option Suit
  game_started : Bool
  finished : Bool
  kazhutha : Option String
  winners : List String
  host_name : String
  discarded_cards : List Card
  round_in_progress : Bool
  game_first_card_played : Bool
  resolved_pile : List (String × Card)
  resolved_winner : Option String
  suit_was_broken : Bool
  taken_hand_cards : List Card
  taken_hand_from : Option String
  taken_hand_by : Option String
  original_players : List String
  connected_players : List String
  waiting_for_player : Option String
deriving DecidableEq, Repr

/-- The `current_player` property: `active_players[idx % len]`, or
`player_order[0]` when no one is active (default `""` stands for the
index error a real empty `player_order` would raise). -/
def GameSession.current_player (s : GameSession) : String :=
  if s.active_players.isEmpty then s.player_order.headD ""
  else s.active_players.getD (s.current_player_idx % s.active_players.length) ""

/-- `get_player_on_left`: the next active player clockwise, unless that is
the player themself. -/
def GameSession.get_player_on_left (s : GameSession) (player_name : String) :
    Option String :=
  if player_name ∈ s.active_players then
    let idx := s.active_players.indexOf player_name
    let next_idx := (idx + 1) % s.active_players.length
    let left_player := s.active_players.getD next_idx ""
    if left_player = player_name then none else some left_player
  else none

/-- One comparison step of Python `max(l, key=lambda x: x[1].value)`:
a later element replaces the current best only when strictly greater. -/
def max_step (acc : Option (String × Card)) (pc : String × Card) :
    Option (String × Card) :=
  match acc with
  | none => some pc
  | some best => if best.2.value < pc.2.value then some pc else some best

/-- Python `max(l, key=lambda x: x[1].value)`: first element attaining the
maximum value; `none` on the empty list (where the source raises `ValueError`). -/
def max_by_value (l : List (String × Card)) : Option (String × Card) :=
  l.foldl max_step none

/-- One iteration of the `_check_for_winners` loop body. -/
def winners_step (acc : GameSession) (player_name : String) : GameSession :=
  if (lookup_hand acc.players player_name).length = 0 ∧
      player_name ∉ acc.winners then
    { acc with winners := acc.winners ++ [player_name],
               active_players := acc.active_players.erase player_name }
  else acc

/-- `_check_for_winners`: iterate over a snapshot of `active_players`, moving
players with empty hands into `winners`. -/
def GameSession.check_for_winners (s : GameSession) : GameSession :=
  s.active_players.foldl winners_step s

/-- `_check_game_over`: the game finishes when at most one active player
still holds cards; with exactly one, that player is the kazhutha. -/
def GameSession.check_game_over (s : GameSession) : GameSession :=
  let players_with_cards :=
    s.active_players.filter (fun p => 0 < (lookup_hand s.players p).length)
  if players_with_cards.length = 1 then
    { s with finished := true, kazhutha := some (players_with_cards.headD "") }
  else if players_with_cards.length = 0 then
    { s with finished := true }
  else s

/-- The `for i in range(1, len(player_order))` search in `_resolve_round` for
the next active player clockwise of the round winner's seat. -/
def find_next_active (order active : List String) (widx : Nat) : Option Nat :=
  (List.range' 1 (order.length - 1)).findSome? (fun i =>
    let next_player := order.getD ((widx + i) % order.length) ""
    if next_player ∈ active then some (active.indexOf next_player) else none)

/-- `_advance_to_next_active_player`. -/
def GameSession.advance_to_next_active_player (s : GameSession) : GameSession :=
  if s.active_players.isEmpty then s
  else
    let current_player := s.current_player
    if current_player ∈ s.active_players then
      { s with current_player_idx :=
          (s.active_players.indexOf current_player + 1) % s.active_players.length }
    else { s with current_player_idx := 0 }

/-- `_resolve_round`: award the pile to the holder of the highest card of the
round-opening suit (or discard it on a clean round), clear the round, detect
winners, pick the next leader, and run game-over detection.  The `none` branch
of `max_by_value` is where the source's `max` would raise on an empty list. -/
def GameSession.resolve_round (s : GameSession) (suit_broken : Bool) :
    GameSession :=
  if s.current_pile.isEmpty then s
  else
    let original_suit_cards :=
      s.current_pile.filter (fun pc => some pc.2.suit == s.original_suit)
    match max_by_value original_suit_cards with
    | none => s
    | some winning_play =>
      let winning_player := winning_play.1
      let s1 := { s with resolved_pile := s.current_pile,
                         resolved_winner := some winning_player,
                         suit_was_broken := suit_broken }
      let s2 :=
        if suit_broken then
          { s1 with players := (set_hand s1.players winning_player
              (sort_hand (lookup_hand s1.players winning_player ++
                s1.current_pile.map Prod.snd))) }
        else
          { s1 with discarded_cards :=
              s1.discarded_cards ++ s1.current_pile.map Prod.snd }
      let s3 := { s2 with current_pile := [], current_suit := none,
                          original_suit := none, round_in_progress := false }
      let s4 := s3.check_for_winners
      let s5 :=
        if winning_player ∈ s4.active_players then
          { s4 with current_player_idx :=
              s4.active_players.indexOf winning_player }
        else
          match find_next_active s4.player_order s4.active_players
              (s4.player_order.indexOf winning_player) with
          | some j => { s4 with current_player_idx := j }
          | none => s4
      s5.check_game_over

/-- The state reached inside `_resolve_round` right after the pile has been
awarded (picked up by the winner when the suit was broken, discarded
otherwise) and the round-tracking fields have been cleared, i.e. the state on
which `_check_for_winners` then runs. -/
def resolve_mid (s : GameSession) (wp : String) (broken : Bool) : GameSession :=
  if broken then
    { s with
      players := (set_hand s.players wp
        (sort_hand (lookup_hand s.players wp ++ s.current_pile.map Prod.snd))),
      resolved_pile := s.current_pile, resolved_winner := some wp,
      suit_was_broken := true, current_pile := [], current_suit := none,
      original_suit := none, round_in_progress := false }
  else
    { s with
      discarded_cards := (s.discarded_cards ++ s.current_pile.map Prod.snd),
      resolved_pile := s.current_pile, resolved_winner := some wp,
      suit_was_broken := false, current_pile := [], current_suit := none,
      original_suit := none, round_in_progress := false }

/-- The mutating tail of `play_card` after all checks passed: remove the card
from the hand, append it to the pile, and either resolve the round (broken or
complete) or advance the turn. -/
def GameSession.play_card_commit (s : GameSession) (player_name : String)
    (card : Card) (player_hand : List Card) : (Bool × Option String) × GameSession :=
  let s1 := { s with players := (set_hand s.players player_name
                        (player_hand.erase card)),
                     current_pile := s.current_pile ++ [(player_name, card)] }
  if some card.suit ≠ s1.original_suit then
    ((true, none), s1.resolve_round true)
  else
    let players_who_played := (s1.current_pile.map Prod.fst).dedup
    if players_who_played.length = s1.active_players.length then
      ((true, none), s1.resolve_round false)
    else
      ((true, none), s1.advance_to_next_active_player)

/-- `play_card`: the turn/legality engine.  Returns the `(success, error)`
pair together with the state as mutated so far (failures before any mutation
return the input state unchanged). -/
def GameSession.play_card (s : GameSession) (player_name : String)
    (card : Card) : (Bool × Option String) × GameSession :=
  if ¬s.game_started ∨ s.finished then ((false, some "Game not in progress"), s)
  else if player_name ≠ s.current_player then ((false, some "Not your turn"), s)
  else if player_name ∉ s.active_players then
    ((false, some "You are not an active player"), s)
  else
    let player_hand := lookup_hand s.players player_name
    if card ∉ player_hand then ((false, some "Card not in your hand"), s)
    else if ¬s.game_first_card_played ∧
        (card.suit ≠ Suit.SPADES ∨ card.rank ≠ Rank.ACE) then
      ((false, some "First card must be Ace of Spades"), s)
    else
      let s1 := if ¬s.game_first_card_played then
          { s with game_first_card_played := true } else s
      let s2 :=
        if s1.current_pile.isEmpty then
          { s1 with original_suit := some card.suit,
                    current_suit := some card.suit,
                    round_in_progress := true,
                    resolved_pile := [], resolved_winner := none,
                    taken_hand_cards := [], taken_hand_from := none,
                    taken_hand_by := none }
        else s1
      match s2.current_suit with
      | some cs =>
        if (player_hand.any (fun c => c.suit == cs)) && (card.suit != cs) then
          ((false, some ("You must play a " ++ cs.value)), s2)
        else s2.play_card_commit player_name card player_hand
      | none => s2.play_card_commit player_name card player_hand

/-- `take_hand_from_left`: the special move seizing the whole hand of the
active player to the left; returns `(success, message, taken_from)` with the
resulting state. -/
def GameSession.take_hand_from_left (s : GameSession) (player_name : String) :
    (Bool × String × Option String) × GameSession :=
  if ¬s.game_started ∨ s.finished then ((false, "Game not in progress", none), s)
  else if s.round_in_progress ∧ 0 < s.current_pile.length then
    ((false, "Cannot take hand during a round", none), s)
  else if player_name ∉ s.active_players then
    ((false, "You are not an active player", none), s)
  else if player_name ≠ s.current_player then
    ((false, "You can only take hand on your turn", none), s)
  else
    match s.get_player_on_left player_name with
    | none => ((false, "No player to take from", none), s)
    | some left_player =>
      if left_player = "" then ((false, "No player to take from", none), s)
      else if (lookup_hand s.players left_player).length = 0 then
        ((false, "That player has no cards", none), s)
      else
        let taken_cards := lookup_hand s.players left_player
        let s1 := { s with players := (set_hand s.players player_name
            (lookup_hand s.players player_name ++ taken_cards)) }
        let s2 := { s1 with players := set_hand s1.players left_player [] }
        let s3 := { s2 with taken_hand_cards := taken_cards,
                            taken_hand_from := some left_player,
                            taken_hand_by := some player_name }
        let s4 := { s3 with players := (set_hand s3.players player_name
            (sort_hand (lookup_hand s3.players player_name))) }
        let s5 := { s4 with winners := s4.winners ++ [left_player],
                            active_players :=
                              s4.active_players.erase left_player }
        let s6 := s5.check_game_over
        let s7 := if player_name ∈ s6.active_players then
            { s6 with current_player_idx :=
                s6.active_players.indexOf player_name }
          else s6
        let s8 := { s7 with resolved_pile := [], resolved_winner := none }
        ((true, "Took " ++ toString taken_cards.length ++ " cards from " ++
          left_player, some left_player), s8)

/-- Append one card to the hand at a given position of the association list
(models `self.players[player_names[player_idx]].append(card)`, positions
standing for unique `dict` keys). -/
def append_at : List (String × List Card) → Nat → Card →
    List (String × List Card)
  | [], _, _ => []
  | p :: ps, 0, c => (p.1, p.2 ++ [c]) :: ps
  | p :: ps, Nat.succ k, c => p :: append_at ps k c

/-- The dealing loop of `start_game`: card `i` of the deck goes to player
`i % n` in key order. -/
def deal_cards : List (String × List Card) → List Card → Nat →
    List (String × List Card)
  | ps, [], _ => ps
  | ps, c :: rest, i => deal_cards (append_at ps (i % ps.length) c) rest (i + 1)

/-- `start_game`, with the shuffled deck passed as a parameter: requires at
least two members, deals round-robin, sorts each hand, activates every seat,
and points the turn at the holder of the Ace of Spades. -/
def GameSession.start_game (s : GameSession) (deck : List Card) :
    Except String GameSession :=
  if s.players.length < 2 then .error "Need at least 2 players"
  else
    let players1 := deal_cards s.players deck 0
    let players2 := players1.map (fun p => (p.1, sort_hand p.2))
    let idx? := s.player_order.findIdx?
      (fun n => ace_of_spades ∈ lookup_hand players2 n)
    .ok { s with players := players2,
                 active_players := s.player_order,
                 current_player_idx := idx?.getD s.current_player_idx,
                 game_started := true,
                 game_first_card_played := false,
                 original_players := s.player_order,
                 connected_players := s.player_order.dedup }

/-- `remove_player`: full deletion in the lobby; during a game only the
connected flag is cleared, recording `waiting_for_player` when it was the
leaver's turn. -/
def GameSession.remove_player (s : GameSession) (player_name : String) :
    GameSession :=
  if player_name ∉ s.players.map Prod.fst then s
  else if ¬s.game_started then
    { s with players := s.players.filter (fun p => p.1 != player_name),
             player_order := s.player_order.erase player_name }
  else
    let s1 := { s with connected_players :=
        s.connected_players.erase player_name }
    if player_name = s1.current_player ∧ player_name ∈ s1.active_players then
      { s1 with waiting_for_player := some player_name }
    else s1

/-- The `insert_idx` computation of `player_reconnected`: the seat-order
position at which a returning player is spliced back into `active_players`. -/
def compute_insert_idx (order : List String) (original_idx : Nat) :
    List String → Nat
  | [] => 0
  | p :: ps =>
    if original_idx < order.indexOf p then 0
    else compute_insert_idx order original_idx ps + 1

/-- `player_reconnected`: mark connected, defensively reinsert a card-holding
player into `active_players` at their seat position, and resume a stalled
turn. -/
def GameSession.player_reconnected (s : GameSession) (player_name : String) :
    GameSession :=
  let s1 := { s with connected_players :=
      if player_name ∈ s.connected_players then s.connected_players
      else s.connected_players ++ [player_name] }
  let s2 :=
    if player_name ∈ s1.players.map Prod.fst ∧
        0 < (lookup_hand s1.players player_name).length then
      if player_name ∉ s1.active_players then
        { s1 with active_players := (s1.active_players.insertIdx
            (compute_insert_idx s1.player_order
              (s1.player_order.indexOf player_name) s1.active_players)
            player_name) }
      else s1
    else s1
  if s2.waiting_for_player = some player_name then
    { s2 with current_player_idx := s2.active_players.indexOf player_name,
              waiting_for_player := none }
  else s2

/-- The multiset of all cards held in hands. -/
def hands_multiset (ps : List (String × List Card)) : Multiset Card :=
  (ps.map (fun p => (p.2 : Multiset Card))).sum

/-- All cards tracked by a session: hands, the current pile and the discard
pile (the conserved quantity of the spec invariant). -/
def cards_multiset (s : GameSession) : Multiset Card :=
  hands_multiset s.players + (s.current_pile.map Prod.snd : List Card) +
    (s.discarded_cards : List Card)

/-- State well-formedness carried by every reachable game: active players are
distinct seats; recorded winners hold no cards and are not active; nobody in
the current pile is a recorded winner; a non-empty pile means a round is in
progress. -/
def WinnersInv (s : GameSession) : Prop :=
  s.active_players.Nodup ∧
  (∀ p ∈ s.winners, lookup_hand s.players p = []) ∧
  (∀ p ∈ s.winners, p ∉ s.active_players) ∧
  (∀ pc ∈ s.current_pile, pc.1 ∉ s.winners) ∧
  (s.current_pile ≠ [] → s.round_in_progress = true)

/-- The 2 of hearts, the example off-suit card of the spec scenario. -/
def two_hearts : Card := ⟨Suit.HEARTS, Rank.TWO⟩

/-- Concrete hand: all thirteen spades then all thirteen diamonds. -/
def scen_handA : List Card :=
  (all_ranks.map (fun r => (⟨Suit.SPADES, r⟩ : Card))) ++
  (all_ranks.map (fun r => (⟨Suit.DIAMONDS, r⟩ : Card)))

/-- Concrete hand: all thirteen hearts then all thirteen clubs. -/
def scen_handB : List Card :=
  (all_ranks.map (fun r => (⟨Suit.HEARTS, r⟩ : Card))) ++
  (all_ranks.map (fun r => (⟨Suit.CLUBS, r⟩ : Card)))

/-- Concrete freshly started 2-player session: A holds the Ace of Spades and
25 other cards (no hearts or clubs), B the remaining 26 (no spades); A to
move, no card played yet. -/
def scen0 : GameSession := {
  game_id := "G", players := [("A", scen_handA), ("B", scen_handB)],
  player_order := ["A", "B"], active_players := ["A", "B"],
  current_player_idx := 0, current_pile := [], current_suit := none,
  original_suit := none, game_started := true, finished := false,
  kazhutha := none, winners := [], host_name := "A", discarded_cards := [],
  round_in_progress := false, game_first_card_played := false,
  resolved_pile := [], resolved_winner := none, suit_was_broken := false,
  taken_hand_cards := [], taken_hand_from := none, taken_hand_by := none,
  original_players := ["A", "B"], connected_players := ["A", "B"],
  waiting_for_player := none }

/-- `scen0` after A plays the Ace of Spades. -/
def scen1 : GameSession := (scen0.play_card "A" ace_of_spades).2

/-- `scen1` after B plays the 2 of hearts (breaking suit). -/
def scen2 : GameSession := (scen1.play_card "B" two_hearts).2

/-- Concrete 2-player lobby (no cards dealt yet). -/
def lobby2 : GameSession := {
  game_id := "G", players := [("A", []), ("B", [])],
  player_order := ["A", "B"], active_players := [], current_player_idx := 0,
  current_pile := [], current_suit := none, original_suit := none,
  game_started := false, finished := false, kazhutha := none, winners := [],
  host_name := "A", discarded_cards := [], round_in_progress := false,
  game_first_card_played := false, resolved_pile := [], resolved_winner := none,
  suit_was_broken := false, taken_hand_cards := [], taken_hand_from := none,
  taken_hand_by := none, original_players := [], connected_players := [],
  waiting_for_player := none }

/-- The result of starting `lobby2` on the unshuffled fresh deck. -/
def started2 : GameSession :=
  match lobby2.start_game fresh_deck with
  | .ok t => t
  | .error _ => lobby2

/-- Concrete mid-game 3-player session in which W has already won. -/
def wstate : GameSession := {
  game_id := "G", players := [("W", []), ("A", [ace_of_spades]), ("B", [two_hearts])],
  player_order := ["W", "A", "B"], active_players := ["A", "B"],
  current_player_idx := 0, current_pile := [], current_suit := none,
  original_suit := none, game_started := true, finished := false,
  kazhutha := none, winners := ["W"], host_name := "W", discarded_cards := [],
  round_in_progress := false, game_first_card_played := true,
  resolved_pile := [], resolved_winner := none, suit_was_broken := false,
  taken_hand_cards := [], taken_hand_from := none, taken_hand_by := none,
  original_players := ["W", "A", "B"], connected_players := ["W", "A", "B"],
  waiting_for_player := none }

/-- `scen0` with a one-card spade pile already on the table (A led the Ace of
Spades; hand already reduced). -/
def pile_state : GameSession :=
  { scen0 with
      players := [("A", scen_handA.erase ace_of_spades), ("B", scen_handB)],
      current_pile := [("A", ace_of_spades)],
      original_suit := some Suit.SPADES, current_suit := some Suit.SPADES,
      round_in_progress := true, current_player_idx := 1 }

/-! ### Basic lemmas about the association-list operations -/

@[simp]
theorem lookup_hand_nil (n : String) : lookup_hand [] n = [] := rfl

@[simp]
theorem lookup_hand_cons (p : String × List Card) (ps : List (String × List Card))
    (n : String) :
    lookup_hand (p :: ps) n = if p.1 = n then p.2 else lookup_hand ps n := by
  by_cases h : p.1 = n
  · simp [lookup_hand, List.find?_cons, h]
  · simp [lookup_hand, List.find?_cons, h]

@[simp]
theorem set_hand_nil (n : String) (h : List Card) :
    set_hand [] n h = [(n, h)] := rfl

@[simp]
theorem set_hand_cons (p : String × List Card) (ps : List (String × List Card))
    (n : String) (h : List Card) :
    set_hand (p :: ps) n h = if p.1 = n then (n, h) :: ps else p :: set_hand ps n h := rfl

@[simp]
theorem lookup_set_self (ps : List (String × List Card)) (n : String)
    (h : List Card) : lookup_hand (set_hand ps n h) n = h := by
  induction ps with
  | nil => simp
  | cons p ps ih =>
    by_cases hp : p.1 = n
    · simp [hp]
    · simp [hp, ih]

theorem lookup_set_ne (ps : List (String × List Card)) {m n : String}
    (hne : m ≠ n) (h : List Card) :
    lookup_hand (set_hand ps n h) m = lookup_hand ps m := by
  induction ps with
  | nil => simp [Ne.symm hne]
  | cons p ps ih =>
    by_cases hp : p.1 = n
    · simp [hp, Ne.symm hne]
    · simp [hp, ih]

@[simp]
theorem hands_multiset_nil : hands_multiset [] = 0 := rfl

@[simp]
theorem hands_multiset_cons (p : String × List Card)
    (ps : List (String × List Card)) :
    hands_multiset (p :: ps) = (p.2 : Multiset Card) + hands_multiset ps := by
  simp [hands_multiset]

theorem hands_multiset_set (ps : List (String × List Card)) (n : String)
    (h : List Card) :
    hands_multiset (set_hand ps n h) + (lookup_hand ps n : Multiset Card) =
      hands_multiset ps + (h : Multiset Card) := by
  induction ps with
  | nil => simp [add_comm]
  | cons p ps ih =>
    by_cases hp : p.1 = n
    · rw [set_hand_cons, if_pos hp, lookup_hand_cons, if_pos hp]
      simp only [hands_multiset_cons]
      ac_rfl
    · rw [set_hand_cons, if_neg hp, lookup_hand_cons, if_neg hp]
      simp only [hands_multiset_cons]
      rw [add_assoc, ih, ← add_assoc]

/-! ### Sorting lemmas -/

theorem sort_hand_perm (h : List Card) : List.Perm (sort_hand h) h :=
  List.perm_insertionSort _ _

@[simp]
theorem length_sort_hand (h : List Card) : (sort_hand h).length = h.length :=
  List.length_insertionSort _ _

@[simp]
theorem coe_sort_hand (h : List Card) :
    ((sort_hand h : List Card) : Multiset Card) = (h : Multiset Card) :=
  Multiset.coe_eq_coe.mpr (sort_hand_perm h)

theorem coe_erase_add_singleton {c : Card} {l : List Card} (h : c ∈ l) :
    ((l.erase c : List Card) : Multiset Card) + {c} = (l : Multiset Card) := by
  have hp := List.perm_cons_erase h
  rw [← Multiset.coe_eq_coe] at hp
  rw [hp, ← Multiset.cons_coe, ← Multiset.singleton_add, add_comm]

/-! ### Specification of the Python max and positional helpers -/

theorem max_step_foldl_spec (l : List (String × Card)) (best : String × Card) :
    ∃ r, l.foldl max_step (some best) = some r ∧
      (r = best ∨ r ∈ l) ∧ best.2.value ≤ r.2.value ∧
      ∀ y ∈ l, y.2.value ≤ r.2.value := by
  induction l generalizing best with
  | nil => exact ⟨best, rfl, Or.inl rfl, le_refl _, by simp⟩
  | cons x xs ih =>
    by_cases hx : best.2.value < x.2.value
    · obtain ⟨r, h1, h2, h3, h4⟩ := ih x
      refine ⟨r, ?_, ?_, le_trans (le_of_lt hx) h3, ?_⟩
      · rw [List.foldl_cons]
        rw [show max_step (some best) x = some x by simp [max_step, hx]]
        exact h1
      · rcases h2 with h | h
        · exact Or.inr (by simp [h])
        · exact Or.inr (by simp [h])
      · intro y hy
        rcases List.mem_cons.mp hy with rfl | hy
        · exact h3
        · exact h4 y hy
    · obtain ⟨r, h1, h2, h3, h4⟩ := ih best
      refine ⟨r, ?_, ?_, h3, ?_⟩
      · rw [List.foldl_cons]
        rw [show max_step (some best) x = some best by simp [max_step, hx]]
        exact h1
      · rcases h2 with h | h
        · exact Or.inl h
        · exact Or.inr (by simp [h])
      · intro y hy
        rcases List.mem_cons.mp hy with rfl | hy
        · exact le_trans (le_of_not_lt hx) h3
        · exact h4 y hy

theorem max_by_value_spec (l : List (String × Card)) (hl : l ≠ []) :
    ∃ r, max_by_value l = some r ∧ r ∈ l ∧
      ∀ y ∈ l, y.2.value ≤ r.2.value := by
  cases l with
  | nil => exact absurd rfl hl
  | cons x xs =>
    obtain ⟨r, h1, h2, h3, h4⟩ := max_step_foldl_spec xs x
    refine ⟨r, ?_, ?_, ?_⟩
    · rw [max_by_value, List.foldl_cons]
      exact h1
    · rcases h2 with h | h
      · exact h ▸ List.mem_cons_self x xs
      · exact List.mem_cons_of_mem x h
    · intro y hy
      rcases List.mem_cons.mp hy with rfl | hy
      · exact h3
      · exact h4 y hy

theorem get_player_on_left_some {s : GameSession} {n l : String}
    (h : s.get_player_on_left n = some l) :
    l ≠ n ∧ l ∈ s.active_players ∧ n ∈ s.active_players := by
  unfold GameSession.get_player_on_left at h
  by_cases hn : n ∈ s.active_players
  · rw [if_pos hn] at h
    by_cases hl : s.active_players.getD
        ((s.active_players.indexOf n + 1) % s.active_players.length) "" = n
    · rw [if_pos hl] at h
      cases h
    · rw [if_neg hl] at h
      have hlen : 0 < s.active_players.length := List.length_pos.mpr
        (List.ne_nil_of_mem hn)
      have hlt : (s.active_players.indexOf n + 1) % s.active_players.length <
          s.active_players.length := Nat.mod_lt _ hlen
      obtain rfl : _ = l := Option.some.inj h
      refine ⟨hl, ?_, hn⟩
      rw [List.getD_eq_getElem _ _ hlt]
      exact List.getElem_mem hlt
  · rw [if_neg hn] at h
    cases h

theorem current_player_of_indexOf {s : GameSession} {n : String}
    (hmem : n ∈ s.active_players)
    (hidx : s.current_player_idx = s.active_players.indexOf n) :
    s.current_player = n := by
  unfold GameSession.current_player
  have hne : ¬s.active_players.isEmpty := by
    simp [List.isEmpty_iff, List.ne_nil_of_mem hmem]
  rw [if_neg hne, hidx]
  have hlt := List.indexOf_lt_length.mpr hmem
  rw [Nat.mod_eq_of_lt hlt, List.getD_eq_getElem _ _ hlt]
  exact List.getElem_indexOf hlt

/-! ### Shape lemmas: winner detection and game-over detection only touch
`winners`, `active_players`, `finished` and `kazhutha` -/

theorem winners_step_eq (acc : GameSession) (p : String) :
    ∃ w a, winners_step acc p =
      { acc with winners := w, active_players := a } := by
  unfold winners_step
  split_ifs with h
  · exact ⟨_, _, rfl⟩
  · exact ⟨acc.winners, acc.active_players, rfl⟩

theorem foldl_winners_step_eq (l : List String) (acc : GameSession) :
    ∃ w a, l.foldl winners_step acc =
      { acc with winners := w, active_players := a } := by
  induction l generalizing acc with
  | nil => exact ⟨acc.winners, acc.active_players, rfl⟩
  | cons x xs ih =>
    rw [List.foldl_cons]
    obtain ⟨w1, a1, h1⟩ := winners_step_eq acc x
    obtain ⟨w2, a2, h2⟩ := ih (winners_step acc x)
    rw [h2, h1]
    exact ⟨w2, a2, rfl⟩

theorem check_for_winners_eq (s : GameSession) :
    ∃ w a, s.check_for_winners =
      { s with winners := w, active_players := a } := by
  unfold GameSession.check_for_winners
  exact foldl_winners_step_eq s.active_players s

theorem check_game_over_eq (s : GameSession) :
    ∃ f k, s.check_game_over = { s with finished := f, kazhutha := k } := by
  unfold GameSession.check_game_over
  dsimp only
  split_ifs with h1 h2
  · exact ⟨_, _, rfl⟩
  · exact ⟨true, s.kazhutha, rfl⟩
  · exact ⟨s.finished, s.kazhutha, rfl⟩

theorem advance_eq (s : GameSession) :
    ∃ i, s.advance_to_next_active_player =
      { s with current_player_idx := i } := by
  unfold GameSession.advance_to_next_active_player
  dsimp only
  split_ifs with h1 h2
  · exact ⟨s.current_player_idx, rfl⟩
  · exact ⟨_, rfl⟩
  · exact ⟨0, rfl⟩

@[simp]
theorem check_for_winners_players (s : GameSession) :
    s.check_for_winners.players = s.players := by
  obtain ⟨w, a, h⟩ := check_for_winners_eq s
  rw [h]

@[simp]
theorem check_for_winners_current_pile (s : GameSession) :
    s.check_for_winners.current_pile = s.current_pile := by
  obtain ⟨w, a, h⟩ := check_for_winners_eq s
  rw [h]

@[simp]
theorem check_for_winners_discarded (s : GameSession) :
    s.check_for_winners.discarded_cards = s.discarded_cards := by
  obtain ⟨w, a, h⟩ := check_for_winners_eq s
  rw [h]

@[simp]
theorem check_for_winners_resolved_winner (s : GameSession) :
    s.check_for_winners.resolved_winner = s.resolved_winner := by
  obtain ⟨w, a, h⟩ := check_for_winners_eq s
  rw [h]

@[simp]
theorem check_for_winners_resolved_pile (s : GameSession) :
    s.check_for_winners.resolved_pile = s.resolved_pile := by
  obtain ⟨w, a, h⟩ := check_for_winners_eq s
  rw [h]

@[simp]
theorem check_for_winners_suit_was_broken (s : GameSession) :
    s.check_for_winners.suit_was_broken = s.suit_was_broken := by
  obtain ⟨w, a, h⟩ := check_for_winners_eq s
  rw [h]

@[simp]
theorem check_for_winners_player_order (s : GameSession) :
    s.check_for_winners.player_order = s.player_order := by
  obtain ⟨w, a, h⟩ := check_for_winners_eq s
  rw [h]

@[simp]
theorem check_for_winners_game_started (s : GameSession) :
    s.check_for_winners.game_started = s.game_started := by
  obtain ⟨w, a, h⟩ := check_for_winners_eq s
  rw [h]

@[simp]
theorem check_game_over_players (s : GameSession) :
    s.check_game_over.players = s.players := by
  obtain ⟨f, k, h⟩ := check_game_over_eq s
  rw [h]

@[simp]
theorem check_game_over_winners (s : GameSession) :
    s.check_game_over.winners = s.winners := by
  obtain ⟨f, k, h⟩ := check_game_over_eq s
  rw [h]

@[simp]
theorem check_game_over_active (s : GameSession) :
    s.check_game_over.active_players = s.active_players := by
  obtain ⟨f, k, h⟩ := check_game_over_eq s
  rw [h]

@[simp]
theorem check_game_over_idx (s : GameSession) :
    s.check_game_over.current_player_idx = s.current_player_idx := by
  obtain ⟨f, k, h⟩ := check_game_over_eq s
  rw [h]

@[simp]
theorem check_game_over_current_pile (s : GameSession) :
    s.check_game_over.current_pile = s.current_pile := by
  obtain ⟨f, k, h⟩ := check_game_over_eq s
  rw [h]

@[simp]
theorem check_game_over_discarded (s : GameSession) :
    s.check_game_over.discarded_cards = s.discarded_cards := by
  obtain ⟨f, k, h⟩ := check_game_over_eq s
  rw [h]

@[simp]
theorem check_game_over_resolved_winner (s : GameSession) :
    s.check_game_over.resolved_winner = s.resolved_winner := by
  obtain ⟨f, k, h⟩ := check_game_over_eq s
  rw [h]

@[simp]
theorem check_game_over_resolved_pile (s : GameSession) :
    s.check_game_over.resolved_pile = s.resolved_pile := by
  obtain ⟨f, k, h⟩ := check_game_over_eq s
  rw [h]

@[simp]
theorem check_game_over_suit_was_broken (s : GameSession) :
    s.check_game_over.suit_was_broken = s.suit_was_broken := by
  obtain ⟨f, k, h⟩ := check_game_over_eq s
  rw [h]

/-- Semantics of `_check_game_over` on the `finished`/`kazhutha` fields. -/
theorem check_game_over_semantics (s : GameSession) :
    (s.check_game_over.finished = true ↔
      (s.active_players.filter
        (fun p => 0 < (lookup_hand s.players p).length)).length ≤ 1 ∨
        s.finished = true) ∧
    ((s.active_players.filter
        (fun p => 0 < (lookup_hand s.players p).length)).length = 1 →
      s.check_game_over.kazhutha = some ((s.active_players.filter
        (fun p => 0 < (lookup_hand s.players p).length)).headD "")) := by
  unfold GameSession.check_game_over
  dsimp only
  split_ifs with h1 h2
  · refine ⟨⟨fun _ => Or.inl (by omega), fun _ => rfl⟩, fun _ => rfl⟩
  · refine ⟨⟨fun _ => Or.inl (by omega), fun _ => rfl⟩, fun hh => absurd hh h1⟩
  · refine ⟨⟨fun hf => Or.inr hf, fun hle => ?_⟩, fun hh => absurd hh h1⟩
    rcases hle with hle | hf
    · exact absurd hle (by omega)
    · exact hf

/-! ### Master equations for round resolution -/

theorem resolve_round_broken_eq (s : GameSession) (r : String × Card)
    (hne : s.current_pile ≠ [])
    (hmax : max_by_value (s.current_pile.filter
      (fun pc => some pc.2.suit == s.original_suit)) = some r) :
    ∃ w a i f k,
      s.resolve_round true = { s with
        players := (set_hand s.players r.1 (sort_hand
          (lookup_hand s.players r.1 ++ s.current_pile.map Prod.snd))),
        resolved_pile := s.current_pile, resolved_winner := some r.1,
        suit_was_broken := true, current_pile := [], current_suit := none,
        original_suit := none, round_in_progress := false,
        winners := w, active_players := a, current_player_idx := i,
        finished := f, kazhutha := k } := by
  unfold GameSession.resolve_round
  rw [if_neg (by simpa [List.isEmpty_iff] using hne)]
  dsimp only
  rw [hmax]
  dsimp only
  rw [if_pos (rfl : (true : Bool) = true)]
  obtain ⟨w, a, hcfw⟩ := check_for_winners_eq { s with
    players := (set_hand s.players r.1 (sort_hand
      (lookup_hand s.players r.1 ++ s.current_pile.map Prod.snd))),
    resolved_pile := s.current_pile, resolved_winner := some r.1,
    suit_was_broken := true, current_pile := [], current_suit := none,
    original_suit := none, round_in_progress := false }
  rw [hcfw]
  dsimp only
  by_cases hw : r.1 ∈ a
  · rw [if_pos hw]
    obtain ⟨f, k, hcg⟩ := check_game_over_eq { s with
      players := (set_hand s.players r.1 (sort_hand
        (lookup_hand s.players r.1 ++ s.current_pile.map Prod.snd))),
      resolved_pile := s.current_pile, resolved_winner := some r.1,
      suit_was_broken := true, current_pile := [], current_suit := none,
      original_suit := none, round_in_progress := false,
      winners := w, active_players := a,
      current_player_idx := a.indexOf r.1 }
    rw [hcg]
    exact ⟨w, a, a.indexOf r.1, f, k, rfl⟩
  · rw [if_neg hw]
    cases find_next_active s.player_order a (s.player_order.indexOf r.1) with
    | some j =>
      dsimp only
      obtain ⟨f, k, hcg⟩ := check_game_over_eq { s with
        players := (set_hand s.players r.1 (sort_hand
          (lookup_hand s.players r.1 ++ s.current_pile.map Prod.snd))),
        resolved_pile := s.current_pile, resolved_winner := some r.1,
        suit_was_broken := true, current_pile := [], current_suit := none,
        original_suit := none, round_in_progress := false,
        winners := w, active_players := a, current_player_idx := j }
      rw [hcg]
      exact ⟨w, a, j, f, k, rfl⟩
    | none =>
      dsimp only
      obtain ⟨f, k, hcg⟩ := check_game_over_eq { s with
        players := (set_hand s.players r.1 (sort_hand
          (lookup_hand s.players r.1 ++ s.current_pile.map Prod.snd))),
        resolved_pile := s.current_pile, resolved_winner := some r.1,
        suit_was_broken := true, current_pile := [], current_suit := none,
        original_suit := none, round_in_progress := false,
        winners := w, active_players := a }
      rw [hcg]
      exact ⟨w, a, s.current_player_idx, f, k, rfl⟩

theorem resolve_round_clean_eq (s : GameSession) (r : String × Card)
    (hne : s.current_pile ≠ [])
    (hmax : max_by_value (s.current_pile.filter
      (fun pc => some pc.2.suit == s.original_suit)) = some r) :
    ∃ w a i f k,
      s.resolve_round false = { s with
        discarded_cards := s.discarded_cards ++ s.current_pile.map Prod.snd,
        resolved_pile := s.current_pile, resolved_winner := some r.1,
        suit_was_broken := false, current_pile := [], current_suit := none,
        original_suit := none, round_in_progress := false,
        winners := w, active_players := a, current_player_idx := i,
        finished := f, kazhutha := k } := by
  unfold GameSession.resolve_round
  rw [if_neg (by simpa [List.isEmpty_iff] using hne)]
  dsimp only
  rw [hmax]
  dsimp only
  rw [if_neg (by simp : ¬((false : Bool) = true))]
  obtain ⟨w, a, hcfw⟩ := check_for_winners_eq { s with
    discarded_cards := s.discarded_cards ++ s.current_pile.map Prod.snd,
    resolved_pile := s.current_pile, resolved_winner := some r.1,
    suit_was_broken := false, current_pile := [], current_suit := none,
    original_suit := none, round_in_progress := false }
  rw [hcfw]
  dsimp only
  by_cases hw : r.1 ∈ a
  · rw [if_pos hw]
    obtain ⟨f, k, hcg⟩ := check_game_over_eq { s with
      discarded_cards := s.discarded_cards ++ s.current_pile.map Prod.snd,
      resolved_pile := s.current_pile, resolved_winner := some r.1,
      suit_was_broken := false, current_pile := [], current_suit := none,
      original_suit := none, round_in_progress := false,
      winners := w, active_players := a,
      current_player_idx := a.indexOf r.1 }
    rw [hcg]
    exact ⟨w, a, a.indexOf r.1, f, k, rfl⟩
  · rw [if_neg hw]
    cases find_next_active s.player_order a (s.player_order.indexOf r.1) with
    | some j =>
      dsimp only
      obtain ⟨f, k, hcg⟩ := check_game_over_eq { s with
        discarded_cards := s.discarded_cards ++ s.current_pile.map Prod.snd,
        resolved_pile := s.current_pile, resolved_winner := some r.1,
        suit_was_broken := false, current_pile := [], current_suit := none,
        original_suit := none, round_in_progress := false,
        winners := w, active_players := a, current_player_idx := j }
      rw [hcg]
      exact ⟨w, a, j, f, k, rfl⟩
    | none =>
      dsimp only
      obtain ⟨f, k, hcg⟩ := check_game_over_eq { s with
        discarded_cards := s.discarded_cards ++ s.current_pile.map Prod.snd,
        resolved_pile := s.current_pile, resolved_winner := some r.1,
        suit_was_broken := false, current_pile := [], current_suit := none,
        original_suit := none, round_in_progress := false,
        winners := w, active_players := a }
      rw [hcg]
      exact ⟨w, a, s.current_player_idx, f, k, rfl⟩

/-! ### Claim theorems: error handling -/

/-- C5: `start_game` fails (with the illegal-state error) exactly when the
session has fewer than 2 members; with at least 2 members it always
succeeds, whatever the rest of the state (in particular even if the game has
already started). -/
theorem start_game_min_players (s : GameSession) (deck : List Card) :
    (s.start_game deck = .error "Need at least 2 players" ↔
      s.players.length < 2) ∧
    (2 ≤ s.players.length → ∃ s', s.start_game deck = .ok s') := by
  unfold GameSession.start_game
  by_cases h : s.players.length < 2
  · rw [if_pos h]
    refine ⟨⟨fun _ => h, fun _ => rfl⟩, fun h2 => absurd h (by omega)⟩
  · rw [if_neg h]
    refine ⟨⟨fun he => Except.noConfusion he, fun hlt => absurd hlt h⟩,
      fun _ => ⟨_, rfl⟩⟩

/-- C8: in a game where no card has been played yet (`game_first_card_played`
still false), a `play_card` that passes the turn, activity and card-in-hand
checks but offers a card other than the Ace of Spades fails with
"First card must be Ace of Spades" and returns the state unchanged. -/
theorem play_card_first_must_be_ace (s : GameSession) (n : String) (c : Card)
    (hs : s.game_started = true) (hf : s.finished = false)
    (hflag : s.game_first_card_played = false)
    (hturn : n = s.current_player) (hact : n ∈ s.active_players)
    (hc : c ∈ lookup_hand s.players n)
    (hna : ¬(c.suit = Suit.SPADES ∧ c.rank = Rank.ACE)) :
    s.play_card n c = ((false, some "First card must be Ace of Spades"), s) := by
  unfold GameSession.play_card
  rw [if_neg (by simp [hs, hf]), if_neg (by simp [hturn]),
    if_neg (by simp [hact]), if_neg (by simp [hc]),
    if_pos ⟨by simp [hflag], not_and_or.mp hna⟩]

/-- C6: any `play_card` accepted after the round's first card (non-empty
pile, round suit recorded in `current_suit`) either comes from a hand with no
card of the round suit, or plays a card of the round suit. -/
theorem suit_following (s : GameSession) (n : String) (c : Card) (rs : Suit)
    (hpile : s.current_pile ≠ [])
    (hsuit : s.current_suit = some rs)
    (hsucc : (s.play_card n c).1.1 = true) :
    (∀ x ∈ lookup_hand s.players n, x.suit ≠ rs) ∨ c.suit = rs := by
  unfold GameSession.play_card at hsucc
  by_cases h1 : ¬s.game_started ∨ s.finished
  · rw [if_pos h1] at hsucc
    simp at hsucc
  rw [if_neg h1] at hsucc
  by_cases h2 : n ≠ s.current_player
  · rw [if_pos h2] at hsucc
    simp at hsucc
  rw [if_neg h2] at hsucc
  by_cases h3 : n ∉ s.active_players
  · rw [if_pos h3] at hsucc
    simp at hsucc
  rw [if_neg h3] at hsucc
  dsimp only at hsucc
  by_cases h4 : c ∉ lookup_hand s.players n
  · rw [if_pos h4] at hsucc
    simp at hsucc
  rw [if_neg h4] at hsucc
  by_cases h5 : ¬s.game_first_card_played = true ∧
      (c.suit ≠ Suit.SPADES ∨ c.rank ≠ Rank.ACE)
  · rw [if_pos h5] at hsucc
    simp at hsucc
  rw [if_neg h5] at hsucc
  rw [if_neg (show ¬((if ¬s.game_first_card_played = true then
      { s with game_first_card_played := true } else s).current_pile.isEmpty
        = true) from by
    by_cases hf : s.game_first_card_played <;>
      simp [hf, List.isEmpty_iff, hpile])] at hsucc
  rw [show (if ¬s.game_first_card_played = true then
      { s with game_first_card_played := true } else s).current_suit = some rs
    from by
      by_cases hf : s.game_first_card_played <;> simp [hf, hsuit]] at hsucc
  dsimp only at hsucc
  by_cases h6 : (((lookup_hand s.players n).any fun x => x.suit == rs) &&
      (c.suit != rs)) = true
  · rw [if_pos h6] at hsucc
    simp at hsucc
  · rw [Bool.and_eq_true, not_and_or] at h6
    rcases h6 with h6 | h6
    · left
      intro x hx
      have := List.any_eq_false.mp (Bool.eq_false_iff.mpr h6) x hx
      simpa using this
    · right
      simpa using h6

/-- C3: resolving a non-empty pile whose first card carries the
round-opening suit crowns as winner the player of the maximum-value card of
that suit; with suit broken the whole pile is appended (re-sorted) to the
winner's hand, otherwise the whole pile moves to the discard pile and no hand
changes; the pile is empty immediately afterwards. -/
theorem resolve_round_winner_spec (s : GameSession) (b : Bool) (os : Suit)
    (hos : s.original_suit = some os)
    (hpile : s.current_pile ≠ [])
    (hhead : (s.current_pile.headD ("", ace_of_spades)).2.suit = os) :
    ∃ w cw, (s.resolve_round b).resolved_winner = some w ∧
      (w, cw) ∈ s.current_pile ∧ cw.suit = os ∧
      (∀ pc ∈ s.current_pile, pc.2.suit = os → pc.2.value ≤ cw.value) ∧
      (b = true → lookup_hand (s.resolve_round b).players w =
        sort_hand (lookup_hand s.players w ++ s.current_pile.map Prod.snd) ∧
        (s.resolve_round b).discarded_cards = s.discarded_cards) ∧
      (b = false → (s.resolve_round b).players = s.players ∧
        (s.resolve_round b).discarded_cards =
          s.discarded_cards ++ s.current_pile.map Prod.snd) ∧
      (s.resolve_round b).current_pile = [] := by
  have hflt : s.current_pile.filter
      (fun pc => some pc.2.suit == s.original_suit) ≠ [] := by
    cases hp : s.current_pile with
    | nil => exact absurd hp hpile
    | cons x xs =>
      have hx : x.2.suit = os := by
        rw [hp] at hhead
        simpa using hhead
      apply List.ne_nil_of_mem (a := x)
      refine List.mem_filter.mpr ⟨List.mem_cons_self _ _, ?_⟩
      simp [hx, hos]
  obtain ⟨r, hrmax, hrmem, hrbig⟩ := max_by_value_spec _ hflt
  have hrpile : r ∈ s.current_pile := (List.mem_filter.mp hrmem).1
  have hrsuit : r.2.suit = os := by
    have hpred := (List.mem_filter.mp hrmem).2
    simpa [hos] using hpred
  have hmaxval : ∀ pc ∈ s.current_pile, pc.2.suit = os →
      pc.2.value ≤ r.2.value := by
    intro pc hpc hsuit
    exact hrbig pc (List.mem_filter.mpr ⟨hpc, by simp [hsuit, hos]⟩)
  refine ⟨r.1, r.2, ?_⟩
  cases b with
  | false =>
    obtain ⟨w, a, i, f, k, heq⟩ := resolve_round_clean_eq s r hpile hrmax
    rw [heq]
    refine ⟨rfl, hrpile, hrsuit, hmaxval, ?_, fun _ => ⟨rfl, rfl⟩, rfl⟩
    intro hb
    exact absurd hb (by simp)
  | true =>
    obtain ⟨w, a, i, f, k, heq⟩ := resolve_round_broken_eq s r hpile hrmax
    rw [heq]
    refine ⟨rfl, hrpile, hrsuit, hmaxval,
      fun _ => ⟨lookup_set_self _ _ _, rfl⟩, ?_, rfl⟩
    intro hb
    exact absurd hb (by simp)

/-- Witness for C3: resolving the one-card spade pile led by A, with suit
broken, hands A the pile. -/
theorem resolve_round_winner_spec_witness :
    ∃ w cw, (pile_state.resolve_round true).resolved_winner = some w ∧
      (w, cw) ∈ pile_state.current_pile ∧ cw.suit = Suit.SPADES ∧
      (∀ pc ∈ pile_state.current_pile, pc.2.suit = Suit.SPADES →
        pc.2.value ≤ cw.value) ∧
      (true = true → lookup_hand (pile_state.resolve_round true).players w =
        sort_hand (lookup_hand pile_state.players w ++
          pile_state.current_pile.map Prod.snd) ∧
        (pile_state.resolve_round true).discarded_cards =
          pile_state.discarded_cards) ∧
      (true = false → (pile_state.resolve_round true).players =
          pile_state.players ∧
        (pile_state.resolve_round true).discarded_cards =
          pile_state.discarded_cards ++ pile_state.current_pile.map Prod.snd) ∧
      (pile_state.resolve_round true).current_pile = [] :=
  resolve_round_winner_spec pile_state true Suit.SPADES rfl (by decide)
    (by decide)

/-! ### Master equation for a successful take-hand -/

set_option maxHeartbeats 1000000 in
theorem take_hand_success_eq (s : GameSession) (n m msg : String)
    (s' : GameSession)
    (h : s.take_hand_from_left n = ((true, msg, some m), s')) :
    s.game_started = true ∧ s.finished = false ∧
    n = s.current_player ∧ n ∈ s.active_players ∧
    s.get_player_on_left n = some m ∧
    lookup_hand s.players m ≠ [] ∧
    s' = { (GameSession.check_game_over { s with
        players := (set_hand (set_hand (set_hand s.players n
            (lookup_hand s.players n ++ lookup_hand s.players m)) m [])
          n (sort_hand (lookup_hand (set_hand (set_hand s.players n
            (lookup_hand s.players n ++ lookup_hand s.players m)) m []) n))),
        taken_hand_cards := lookup_hand s.players m,
        taken_hand_from := some m, taken_hand_by := some n,
        winners := s.winners ++ [m],
        active_players := s.active_players.erase m }) with
      current_player_idx := (s.active_players.erase m).indexOf n,
      resolved_pile := ([] : List (String × Card)),
      resolved_winner := (none : Option String) } := by
  unfold GameSession.take_hand_from_left at h
  by_cases h1 : ¬s.game_started ∨ s.finished
  · rw [if_pos h1] at h
    simp at h
  rw [if_neg h1] at h
  push_neg at h1
  by_cases h2 : s.round_in_progress ∧ 0 < s.current_pile.length
  · rw [if_pos h2] at h
    simp at h
  rw [if_neg h2] at h
  by_cases h3 : n ∉ s.active_players
  · rw [if_pos h3] at h
    simp at h
  rw [if_neg h3] at h
  rw [not_not] at h3
  by_cases h4 : n ≠ s.current_player
  · rw [if_pos h4] at h
    simp at h
  rw [if_neg h4] at h
  rw [not_not] at h4
  cases hgp : s.get_player_on_left n with
  | none =>
    rw [hgp] at h
    simp at h
  | some lp =>
    rw [hgp] at h
    dsimp only at h
    by_cases h5 : lp = ""
    · rw [if_pos h5] at h
      simp at h
    rw [if_neg h5] at h
    by_cases h6 : (lookup_hand s.players lp).length = 0
    · rw [if_pos h6] at h
      simp at h
    rw [if_neg h6] at h
    have hlpn : lp ≠ n := (get_player_on_left_some hgp).1
    obtain ⟨f, k, hcg⟩ := check_game_over_eq { s with
      players := (set_hand (set_hand (set_hand s.players n
          (lookup_hand s.players n ++ lookup_hand s.players lp)) lp [])
        n (sort_hand (lookup_hand (set_hand (set_hand s.players n
          (lookup_hand s.players n ++ lookup_hand s.players lp)) lp []) n))),
      taken_hand_cards := lookup_hand s.players lp,
      taken_hand_from := some lp, taken_hand_by := some n,
      winners := s.winners ++ [lp],
      active_players := s.active_players.erase lp }
    rw [hcg] at h
    dsimp only at h
    rw [if_pos ((List.mem_erase_of_ne (fun e => hlpn e.symm)).mpr h3)] at h
    simp only [Prod.mk.injEq, Option.some.injEq] at h
    obtain ⟨⟨-, -, hlm⟩, hs⟩ := h
    subst hlm
    refine ⟨by simp [h1.1], by simp [h1.2], h4, h3, rfl,
      fun e => h6 (by rw [e]; rfl), ?_⟩
    rw [hcg]
    dsimp only
    exact hs.symm

/-- C4: a successful `take_hand_from_left` grows the acting player's hand by
exactly the left neighbor's hand, empties the neighbor's hand, appends the
neighbor to `winners` and removes them from `active_players`, and leaves the
acting player (still active) as current player.  (`active_players` of a real
session is duplicate-free, which the removal conclusion needs.) -/
theorem take_hand_from_left_spec (s : GameSession) (n m msg : String)
    (s' : GameSession) (hnd : s.active_players.Nodup)
    (h : s.take_hand_from_left n = ((true, msg, some m), s')) :
    (lookup_hand s'.players n).length =
      (lookup_hand s.players n).length + (lookup_hand s.players m).length ∧
    lookup_hand s'.players m = [] ∧
    s'.winners = s.winners ++ [m] ∧
    m ∉ s'.active_players ∧
    (n ∈ s'.active_players → s'.current_player = n) := by
  obtain ⟨hs1, hs2, hcur, hact, hgp, hm0, heq⟩ := take_hand_success_eq s n m msg s' h
  obtain ⟨hmn, hmact, -⟩ := get_player_on_left_some hgp
  have hnm : n ≠ m := fun e => hmn e.symm
  subst heq
  refine ⟨?_, ?_, by simp, ?_, ?_⟩
  · dsimp only
    rw [check_game_over_players]
    dsimp only
    rw [lookup_set_self, length_sort_hand, lookup_set_ne _ hnm,
      lookup_set_self, List.length_append]
  · dsimp only
    rw [check_game_over_players]
    dsimp only
    rw [lookup_set_ne _ hmn, lookup_set_self]
  · dsimp only
    rw [check_game_over_active]
    dsimp only
    exact hnd.not_mem_erase
  · intro hmem
    apply current_player_of_indexOf hmem
    dsimp only
    rw [check_game_over_active]

/-- Witness for C4: in the concrete 2-player game A takes B's whole hand. -/
theorem take_hand_from_left_spec_witness :
    (lookup_hand ((scen0.take_hand_from_left "A").2).players "A").length =
      (lookup_hand scen0.players "A").length +
        (lookup_hand scen0.players "B").length ∧
    lookup_hand ((scen0.take_hand_from_left "A").2).players "B" = [] ∧
    ((scen0.take_hand_from_left "A").2).winners = scen0.winners ++ ["B"] ∧
    "B" ∉ ((scen0.take_hand_from_left "A").2).active_players ∧
    ("A" ∈ ((scen0.take_hand_from_left "A").2).active_players →
      ((scen0.take_hand_from_left "A").2).current_player = "A") :=
  take_hand_from_left_spec scen0 "A" "B" "Took 26 cards from B"
    (scen0.take_hand_from_left "A").2 (by decide) rfl

/-- C10: with exactly two active players, a successful take-hand ends the
game: `finished` is set, the stripped left neighbor is appended to `winners`,
and the acting player (now holding every non-discarded card) is the
kazhutha. -/
theorem take_hand_two_players_end (s : GameSession) (n m msg : String)
    (s' : GameSession) (h2 : s.active_players.length = 2)
    (h : s.take_hand_from_left n = ((true, msg, some m), s')) :
    s'.finished = true ∧ s'.kazhutha = some n ∧
    s'.winners = s.winners ++ [m] := by
  obtain ⟨hs1, hs2, hcur, hact, hgp, hm0, heq⟩ := take_hand_success_eq s n m msg s' h
  obtain ⟨hmn, hmact, -⟩ := get_player_on_left_some hgp
  have herase : s.active_players.erase m = [n] := by
    rcases List.length_eq_two.mp h2 with ⟨a, b, hab⟩
    rw [hab] at hact hmact ⊢
    simp only [List.mem_cons, List.mem_singleton, List.not_mem_nil,
      or_false] at hact hmact
    rcases hact with rfl | rfl <;> rcases hmact with rfl | rfl
    · exact absurd rfl hmn
    · simp only [List.erase_cons]
      rw [if_neg (by simpa using fun e : n = m => hmn e.symm),
        if_pos (by simp)]
    · simp [List.erase_cons]
    · exact absurd rfl hmn
  have hpos : 0 < (lookup_hand { s with
      players := (set_hand (set_hand (set_hand s.players n
          (lookup_hand s.players n ++ lookup_hand s.players m)) m [])
        n (sort_hand (lookup_hand (set_hand (set_hand s.players n
          (lookup_hand s.players n ++ lookup_hand s.players m)) m []) n))),
      taken_hand_cards := lookup_hand s.players m,
      taken_hand_from := some m, taken_hand_by := some n,
      winners := s.winners ++ [m],
      active_players := s.active_players.erase m : GameSession}.players n).length := by
    dsimp only
    rw [lookup_set_self, length_sort_hand,
      lookup_set_ne _ (fun e : n = m => hmn e.symm), lookup_set_self,
      List.length_append]
    have := List.length_pos.mpr hm0
    omega
  have hfilter : ({ s with
      players := (set_hand (set_hand (set_hand s.players n
          (lookup_hand s.players n ++ lookup_hand s.players m)) m [])
        n (sort_hand (lookup_hand (set_hand (set_hand s.players n
          (lookup_hand s.players n ++ lookup_hand s.players m)) m []) n))),
      taken_hand_cards := lookup_hand s.players m,
      taken_hand_from := some m, taken_hand_by := some n,
      winners := s.winners ++ [m],
      active_players := s.active_players.erase m : GameSession}.active_players.filter
        (fun p => 0 < (lookup_hand { s with
      players := (set_hand (set_hand (set_hand s.players n
          (lookup_hand s.players n ++ lookup_hand s.players m)) m [])
        n (sort_hand (lookup_hand (set_hand (set_hand s.players n
          (lookup_hand s.players n ++ lookup_hand s.players m)) m []) n))),
      taken_hand_cards := lookup_hand s.players m,
      taken_hand_from := some m, taken_hand_by := some n,
      winners := s.winners ++ [m],
      active_players := s.active_players.erase m : GameSession}.players p).length)) = [n] := by
    dsimp only
    rw [herase]
    rw [List.filter_cons]
    simp only [List.filter_nil]
    rw [if_pos (by simpa using hpos)]
  obtain ⟨hfin, hkaz⟩ := check_game_over_semantics { s with
      players := (set_hand (set_hand (set_hand s.players n
          (lookup_hand s.players n ++ lookup_hand s.players m)) m [])
        n (sort_hand (lookup_hand (set_hand (set_hand s.players n
          (lookup_hand s.players n ++ lookup_hand s.players m)) m []) n))),
      taken_hand_cards := lookup_hand s.players m,
      taken_hand_from := some m, taken_hand_by := some n,
      winners := s.winners ++ [m],
      active_players := s.active_players.erase m }
  subst heq
  refine ⟨?_, ?_, by simp⟩
  · dsimp only
    exact hfin.mpr (Or.inl (by rw [hfilter]; simp))
  · dsimp only
    rw [hkaz (by rw [hfilter]; rfl), hfilter]
    rfl

/-- Witness for C10: the concrete 2-player take-hand ends the game with A as
the kazhutha. -/
theorem take_hand_two_players_end_witness :
    ((scen0.take_hand_from_left "A").2).finished = true ∧
    ((scen0.take_hand_from_left "A").2).kazhutha = some "A" ∧
    ((scen0.take_hand_from_left "A").2).winners = scen0.winners ++ ["B"] :=
  take_hand_two_players_end scen0 "A" "B" "Took 26 cards from B"
    (scen0.take_hand_from_left "A").2 (by decide) rfl

/-! ### Dealing machinery: multiset accounting and key preservation -/

theorem append_at_keys (ps : List (String × List Card)) (k : Nat) (c : Card) :
    (append_at ps k c).map Prod.fst = ps.map Prod.fst := by
  induction ps generalizing k with
  | nil => rfl
  | cons p ps ih =>
    cases k with
    | zero => rfl
    | succ k => simp [append_at, ih]

theorem append_at_length (ps : List (String × List Card)) (k : Nat) (c : Card) :
    (append_at ps k c).length = ps.length := by
  induction ps generalizing k with
  | nil => rfl
  | cons p ps ih =>
    cases k with
    | zero => rfl
    | succ k => simp [append_at, ih]

theorem append_at_hands (ps : List (String × List Card)) (k : Nat) (c : Card)
    (hk : k < ps.length) :
    hands_multiset (append_at ps k c) = hands_multiset ps + {c} := by
  induction ps generalizing k with
  | nil => simp at hk
  | cons p ps ih =>
    cases k with
    | zero =>
      show hands_multiset ((p.1, p.2 ++ [c]) :: ps) = _
      rw [hands_multiset_cons, hands_multiset_cons]
      rw [show ((p.2 ++ [c] : List Card) : Multiset Card) =
        (p.2 : Multiset Card) + {c} from by
          rw [← Multiset.coe_add, ← Multiset.coe_singleton]]
      ac_rfl
    | succ k =>
      show hands_multiset (p :: append_at ps k c) = _
      rw [hands_multiset_cons, hands_multiset_cons,
        ih k (Nat.lt_of_succ_lt_succ hk)]
      rw [add_assoc]

theorem deal_cards_keys (deck : List Card) :
    ∀ (ps : List (String × List Card)) (i : Nat),
      (deal_cards ps deck i).map Prod.fst = ps.map Prod.fst := by
  induction deck with
  | nil => intro ps i; rfl
  | cons c rest ih =>
    intro ps i
    show (deal_cards (append_at ps (i % ps.length) c) rest (i + 1)).map
      Prod.fst = _
    rw [ih, append_at_keys]

theorem deal_cards_hands (deck : List Card) :
    ∀ (ps : List (String × List Card)) (i : Nat), ps ≠ [] →
      hands_multiset (deal_cards ps deck i) =
        hands_multiset ps + (deck : Multiset Card) := by
  induction deck with
  | nil => intro ps i hps; simp [deal_cards]
  | cons c rest ih =>
    intro ps i hps
    have hlen : 0 < ps.length := List.length_pos.mpr hps
    have hne : append_at ps (i % ps.length) c ≠ [] := by
      intro e
      have h0 := congrArg List.length e
      rw [append_at_length] at h0
      simp only [List.length_nil] at h0
      omega
    show hands_multiset (deal_cards (append_at ps (i % ps.length) c) rest
      (i + 1)) = _
    rw [ih _ _ hne, append_at_hands _ _ _ (Nat.mod_lt _ hlen)]
    rw [← Multiset.cons_coe, ← Multiset.singleton_add]
    ac_rfl

theorem map_sort_keys (ps : List (String × List Card)) :
    (ps.map (fun p => (p.1, sort_hand p.2))).map Prod.fst = ps.map Prod.fst := by
  rw [List.map_map]
  rfl

theorem map_sort_hands (ps : List (String × List Card)) :
    hands_multiset (ps.map (fun p => (p.1, sort_hand p.2))) =
      hands_multiset ps := by
  induction ps with
  | nil => rfl
  | cons p ps ih =>
    rw [List.map_cons, hands_multiset_cons, hands_multiset_cons, ih]
    show ((sort_hand p.2 : List Card) : Multiset Card) + _ = _
    rw [coe_sort_hand]

theorem hands_multiset_of_empty (ps : List (String × List Card))
    (h : ∀ p ∈ ps, p.2 = []) : hands_multiset ps = 0 := by
  induction ps with
  | nil => rfl
  | cons p ps ih =>
    rw [hands_multiset_cons, h p (List.mem_cons_self _ _),
      ih (fun q hq => h q (List.mem_cons_of_mem _ hq))]
    rfl

theorem fresh_deck_count (c : Card) : fresh_deck.count c = 1 := by
  have hnd : fresh_deck.Nodup := by decide
  have hmem : c ∈ fresh_deck := by
    obtain ⟨su, r⟩ := c
    cases su <;> cases r <;> decide
  exact List.count_eq_one_of_mem hnd hmem

theorem count_hands_multiset (a : Card) (ps : List (String × List Card)) :
    Multiset.count a (hands_multiset ps) =
      (ps.map (fun p => p.2.count a)).sum := by
  induction ps with
  | nil => rfl
  | cons p ps ih =>
    rw [hands_multiset_cons, Multiset.count_add, ih, List.map_cons,
      List.sum_cons, Multiset.coe_count]

theorem countP_pos_of_sum_zero (l : List Nat) (h : l.sum = 0) :
    l.countP (fun x => decide (0 < x)) = 0 := by
  induction l with
  | nil => rfl
  | cons x xs ih =>
    rw [List.sum_cons] at h
    rw [List.countP_cons]
    have hx : x = 0 := by omega
    rw [ih (by omega), hx]
    rfl

theorem countP_pos_of_sum_one (l : List Nat) (h : l.sum = 1) :
    l.countP (fun x => decide (0 < x)) = 1 := by
  induction l with
  | nil => simp at h
  | cons x xs ih =>
    rw [List.sum_cons] at h
    rw [List.countP_cons]
    rcases Nat.eq_zero_or_pos x with hx | hx
    · rw [ih (by omega), hx]
      rfl
    · have hxs : xs.sum = 0 := by omega
      rw [countP_pos_of_sum_zero xs hxs]
      simp [hx]

theorem lookup_of_mem_nodup {ps : List (String × List Card)}
    (hnd : (ps.map Prod.fst).Nodup) {k : String} {h : List Card}
    (hmem : (k, h) ∈ ps) : lookup_hand ps k = h := by
  induction ps with
  | nil => cases hmem
  | cons p ps ih =>
    rw [List.map_cons, List.nodup_cons] at hnd
    rcases List.mem_cons.mp hmem with heq | htail
    · rw [← heq, lookup_hand_cons, if_pos rfl]
    · have hkne : p.1 ≠ k := by
        intro e
        exact hnd.1 (e ▸ List.mem_map_of_mem Prod.fst htail)
      rw [lookup_hand_cons, if_neg hkne]
      exact ih hnd.2 htail

theorem findIdx?_spec (p : String → Bool) :
    ∀ (l : List String) (i : Nat), l.findIdx? p = some i →
      i < l.length ∧ p (l.getD i "") = true := by
  intro l
  induction l with
  | nil => intro i hi; cases hi
  | cons a l ih =>
    intro i hi
    have hcons : List.findIdx? p (a :: l) =
        if p a then some 0 else (List.findIdx? p l).map (fun j => j + 1) := by
      simp [List.findIdx?_cons]
    rw [hcons] at hi
    by_cases hp : p a
    · rw [if_pos hp] at hi
      obtain rfl : 0 = i := Option.some.inj hi
      exact ⟨Nat.succ_pos _, hp⟩
    · rw [if_neg hp] at hi
      obtain ⟨j, hj, hji⟩ := Option.map_eq_some'.mp hi
      obtain ⟨hjl, hjp⟩ := ih j hj
      subst hji
      exact ⟨Nat.succ_lt_succ hjl, by simpa using hjp⟩

theorem findIdx?_exists (p : String → Bool) :
    ∀ (l : List String), (∃ x ∈ l, p x = true) →
      ∃ i, l.findIdx? p = some i := by
  intro l
  induction l with
  | nil =>
    rintro ⟨x, hx, -⟩
    cases hx
  | cons a l ih =>
    rintro ⟨x, hx, hpx⟩
    have hcons : List.findIdx? p (a :: l) =
        if p a then some 0 else (List.findIdx? p l).map (fun j => j + 1) := by
      simp [List.findIdx?_cons]
    by_cases hp : p a
    · exact ⟨0, by rw [hcons, if_pos hp]⟩
    · rcases List.mem_cons.mp hx with rfl | hxl
      · exact absurd hpx (by simpa using hp)
      · obtain ⟨j, hj⟩ := ih ⟨x, hxl, hpx⟩
        exact ⟨j + 1, by rw [hcons, if_neg hp, hj]; rfl⟩

theorem start_game_ok (s : GameSession) (deck : List Card) (s' : GameSession)
    (hok : s.start_game deck = .ok s') :
    2 ≤ s.players.length ∧
    s' = { s with
      players := ((deal_cards s.players deck 0).map
        (fun p => (p.1, sort_hand p.2))),
      active_players := s.player_order,
      current_player_idx := (s.player_order.findIdx?
        (fun n => ace_of_spades ∈ lookup_hand ((deal_cards s.players deck
          0).map (fun p => (p.1, sort_hand p.2))) n)).getD
        s.current_player_idx,
      game_started := true, game_first_card_played := false,
      original_players := s.player_order,
      connected_players := s.player_order.dedup } := by
  unfold GameSession.start_game at hok
  by_cases h : s.players.length < 2
  · rw [if_pos h] at hok
    cases hok
  · rw [if_neg h] at hok
    dsimp only at hok
    exact ⟨by omega, (Except.ok.inj hok).symm⟩

/-- C9: starting a game from a lobby (empty hands, seating = player keys,
distinct names, at least 2 players implied by success) on any permutation of
the fresh deck leaves the current player holding the Ace of Spades, and
exactly one player holds it. -/
theorem start_game_ace_holder (s : GameSession) (deck : List Card)
    (s' : GameSession)
    (hempty : ∀ p ∈ s.players, p.2 = [])
    (horder : s.player_order = s.players.map Prod.fst)
    (hnodup : s.player_order.Nodup)
    (hperm : deck.Perm fresh_deck)
    (hok : s.start_game deck = .ok s') :
    ace_of_spades ∈ lookup_hand s'.players s'.current_player ∧
    s'.players.countP (fun p => decide (ace_of_spades ∈ p.2)) = 1 := by
  obtain ⟨h2, heq⟩ := start_game_ok s deck s' hok
  have hpsne : s.players ≠ [] := by
    intro e
    rw [e] at h2
    simp at h2
  have hM : hands_multiset ((deal_cards s.players deck 0).map
      (fun p => (p.1, sort_hand p.2))) = (fresh_deck : Multiset Card) := by
    rw [map_sort_hands, deal_cards_hands deck s.players 0 hpsne,
      hands_multiset_of_empty s.players hempty, Multiset.coe_eq_coe.mpr hperm,
      zero_add]
  have hkeys : ((deal_cards s.players deck 0).map
      (fun p => (p.1, sort_hand p.2))).map Prod.fst =
      s.players.map Prod.fst := by
    rw [map_sort_keys, deal_cards_keys]
  set P2 := (deal_cards s.players deck 0).map (fun p => (p.1, sort_hand p.2))
    with hP2def
  have hc1 : Multiset.count ace_of_spades (hands_multiset P2) = 1 := by
    rw [hM, Multiset.coe_count, fresh_deck_count]
  have hsum : (P2.map (fun p => p.2.count ace_of_spades)).sum = 1 := by
    rw [← count_hands_multiset]
    exact hc1
  have hcp : P2.countP (fun p => decide (0 < p.2.count ace_of_spades)) = 1 := by
    have hone := countP_pos_of_sum_one _ hsum
    rw [List.countP_map] at hone
    exact hone
  have hfinal : P2.countP (fun p => decide (ace_of_spades ∈ p.2)) = 1 := by
    have hiff : ∀ q ∈ P2, (decide (ace_of_spades ∈ q.2) = true ↔
        decide (0 < q.2.count ace_of_spades) = true) := by
      intro q hq
      rw [decide_eq_true_eq, decide_eq_true_eq]
      exact List.count_pos_iff.symm
    rw [List.countP_congr hiff, hcp]
  have hex : ∃ x ∈ s.player_order,
      (fun n => decide (ace_of_spades ∈ lookup_hand P2 n)) x = true := by
    have hpos : 0 < P2.countP (fun p => decide (ace_of_spades ∈ p.2)) := by
      rw [hfinal]
      omega
    obtain ⟨q, hqmem, hqp⟩ := List.countP_pos.mp hpos
    refine ⟨q.1, ?_, ?_⟩
    · rw [horder, ← hkeys]
      exact List.mem_map_of_mem Prod.fst hqmem
    · have hl : lookup_hand P2 q.1 = q.2 := by
        apply lookup_of_mem_nodup
        · rw [hkeys, ← horder]
          exact hnodup
        · exact hqmem
      simpa [hl] using hqp
  obtain ⟨i, hfi⟩ := findIdx?_exists _ _ hex
  obtain ⟨hilt, hipred⟩ := findIdx?_spec _ _ _ hfi
  have hone : ¬s.player_order.isEmpty = true := by
    intro e
    rw [List.isEmpty_iff] at e
    have h0 := congrArg List.length horder
    rw [e, List.length_map] at h0
    simp at h0
    omega
  subst heq
  constructor
  · unfold GameSession.current_player
    dsimp only
    rw [hfi]
    rw [show (some i).getD s.current_player_idx = i from rfl]
    rw [if_neg hone, Nat.mod_eq_of_lt hilt]
    exact of_decide_eq_true hipred
  · exact hfinal

/-- Witness for C9: starting the concrete 2-player lobby on the identity
permutation of the fresh deck. -/
theorem start_game_ace_holder_witness :
    ace_of_spades ∈ lookup_hand started2.players started2.current_player ∧
    started2.players.countP (fun p => decide (ace_of_spades ∈ p.2)) = 1 :=
  start_game_ace_holder lobby2 fresh_deck started2 (by decide) rfl
    (by decide) (List.Perm.refl _) rfl

/-! ### Card conservation -/

theorem check_game_over_cards (s : GameSession) :
    cards_multiset s.check_game_over = cards_multiset s := by
  obtain ⟨f, k, h⟩ := check_game_over_eq s
  rw [h]
  rfl

theorem advance_cards (s : GameSession) :
    cards_multiset s.advance_to_next_active_player = cards_multiset s := by
  obtain ⟨i, h⟩ := advance_eq s
  rw [h]
  rfl

theorem resolve_round_cards (s : GameSession) (b : Bool) :
    cards_multiset (s.resolve_round b) = cards_multiset s := by
  by_cases hp : s.current_pile = []
  · unfold GameSession.resolve_round
    rw [if_pos (by simpa [List.isEmpty_iff] using hp)]
  · cases hm : max_by_value (s.current_pile.filter
        (fun pc => some pc.2.suit == s.original_suit)) with
    | none =>
      unfold GameSession.resolve_round
      rw [if_neg (by simpa [List.isEmpty_iff] using hp)]
      dsimp only
      rw [hm]
    | some r =>
      cases b with
      | true =>
        obtain ⟨w, a, i, f, k, heq⟩ := resolve_round_broken_eq s r hp hm
        rw [heq]
        unfold cards_multiset
        dsimp only
        have h1 := hands_multiset_set s.players r.1 (sort_hand
          (lookup_hand s.players r.1 ++ s.current_pile.map Prod.snd))
        rw [coe_sort_hand, ← Multiset.coe_add] at h1
        have h2 : hands_multiset (set_hand s.players r.1 (sort_hand
            (lookup_hand s.players r.1 ++ s.current_pile.map Prod.snd))) +
            (lookup_hand s.players r.1 : Multiset Card) =
            (hands_multiset s.players +
              (s.current_pile.map Prod.snd : List Card)) +
            (lookup_hand s.players r.1 : Multiset Card) := by
          rw [h1]
          ac_rfl
        have h3 := add_right_cancel h2
        rw [h3]
        simp only [List.map_nil, Multiset.coe_nil, add_zero]
      | false =>
        obtain ⟨w, a, i, f, k, heq⟩ := resolve_round_clean_eq s r hp hm
        rw [heq]
        unfold cards_multiset
        dsimp only
        rw [show ((s.discarded_cards ++ s.current_pile.map Prod.snd :
            List Card) : Multiset Card) =
          (s.discarded_cards : Multiset Card) +
            (s.current_pile.map Prod.snd : List Card) from
          (Multiset.coe_add _ _).symm]
        simp only [List.map_nil, Multiset.coe_nil, add_zero]
        ac_rfl

theorem play_card_commit_cards (s : GameSession) (n : String) (c : Card)
    (ph : List Card) (hmem : c ∈ ph) (hph : lookup_hand s.players n = ph) :
    cards_multiset (s.play_card_commit n c ph).2 = cards_multiset s := by
  have hS1 : cards_multiset { s with
      players := set_hand s.players n (ph.erase c),
      current_pile := s.current_pile ++ [(n, c)] } = cards_multiset s := by
    unfold cards_multiset
    dsimp only
    have h1 := hands_multiset_set s.players n (ph.erase c)
    rw [hph] at h1
    have h2 : ((ph.erase c : List Card) : Multiset Card) + {c} =
        (ph : Multiset Card) := coe_erase_add_singleton hmem
    have h4 : hands_multiset (set_hand s.players n (ph.erase c)) + {c} +
        ((ph.erase c : List Card) : Multiset Card) =
        hands_multiset s.players +
          ((ph.erase c : List Card) : Multiset Card) := by
      have h5 : hands_multiset (set_hand s.players n (ph.erase c)) + {c} +
          ((ph.erase c : List Card) : Multiset Card) =
          hands_multiset (set_hand s.players n (ph.erase c)) +
            (ph : Multiset Card) := by
        rw [← h2]
        ac_rfl
      rw [h5, h1]
    have h3 := add_right_cancel h4
    rw [show ((List.map Prod.snd (s.current_pile ++ [(n, c)]) : List Card) :
        Multiset Card) =
      (s.current_pile.map Prod.snd : List Card) + {c} from by
        rw [List.map_append, ← Multiset.coe_add]
        rfl]
    rw [← h3]
    ac_rfl
  unfold GameSession.play_card_commit
  dsimp only
  by_cases hos : some c.suit ≠ s.original_suit
  · rw [if_pos hos]
    dsimp only
    rw [resolve_round_cards]
    exact hS1
  · rw [if_neg hos]
    by_cases hdd : (((s.current_pile ++ [(n, c)]).map Prod.fst).dedup).length
        = s.active_players.length
    · rw [if_pos hdd]
      dsimp only
      rw [resolve_round_cards]
      exact hS1
    · rw [if_neg hdd]
      dsimp only
      rw [advance_cards]
      exact hS1

theorem play_card_cards (s : GameSession) (n : String) (c : Card) :
    cards_multiset (s.play_card n c).2 = cards_multiset s := by
  unfold GameSession.play_card
  by_cases h1 : ¬s.game_started ∨ s.finished
  · rw [if_pos h1]
  rw [if_neg h1]
  by_cases h2 : n ≠ s.current_player
  · rw [if_pos h2]
  rw [if_neg h2]
  by_cases h3 : n ∉ s.active_players
  · rw [if_pos h3]
  rw [if_neg h3]
  dsimp only
  by_cases h4 : c ∉ lookup_hand s.players n
  · rw [if_pos h4]
  rw [if_neg h4]
  rw [not_not] at h4
  by_cases h5 : ¬s.game_first_card_played = true ∧
      (c.suit ≠ Suit.SPADES ∨ c.rank ≠ Rank.ACE)
  · rw [if_pos h5]
  rw [if_neg h5]
  generalize hT : (if ¬s.game_first_card_played = true then
    { s with game_first_card_played := true } else s) = T
  have hTpile : T.current_pile = s.current_pile := by
    rw [← hT]
    by_cases hf : s.game_first_card_played <;> simp [hf]
  have hTplayers : T.players = s.players := by
    rw [← hT]
    by_cases hf : s.game_first_card_played <;> simp [hf]
  have hTcards : cards_multiset T = cards_multiset s := by
    rw [← hT]
    by_cases hf : s.game_first_card_played <;> simp [hf, cards_multiset]
  by_cases hpe : T.current_pile.isEmpty = true
  · rw [if_pos hpe]
    dsimp only
    by_cases hg : (((lookup_hand s.players n).any fun x => x.suit == c.suit)
        && (c.suit != c.suit)) = true
    · rw [if_pos hg]
      exact hTcards
    · rw [if_neg hg, play_card_commit_cards _ _ _ _ h4]
      · exact hTcards
      · dsimp only
        rw [hTplayers]
  · rw [if_neg hpe]
    cases hcs : T.current_suit with
    | none =>
      dsimp only
      rw [play_card_commit_cards _ _ _ _ h4]
      · exact hTcards
      · rw [hTplayers]
    | some cs =>
      dsimp only
      by_cases hg : (((lookup_hand s.players n).any fun x => x.suit == cs)
          && (c.suit != cs)) = true
      · rw [if_pos hg]
        exact hTcards
      · rw [if_neg hg, play_card_commit_cards _ _ _ _ h4]
        · exact hTcards
        · rw [hTplayers]

set_option maxHeartbeats 1000000 in
theorem take_hand_result (s : GameSession) (n : String) :
    (s.take_hand_from_left n).2 = s ∨
    ∃ m msg s', s.take_hand_from_left n = ((true, msg, some m), s') := by
  unfold GameSession.take_hand_from_left
  by_cases h1 : ¬s.game_started ∨ s.finished
  · rw [if_pos h1]
    exact Or.inl rfl
  rw [if_neg h1]
  by_cases h2 : s.round_in_progress ∧ 0 < s.current_pile.length
  · rw [if_pos h2]
    exact Or.inl rfl
  rw [if_neg h2]
  by_cases h3 : n ∉ s.active_players
  · rw [if_pos h3]
    exact Or.inl rfl
  rw [if_neg h3]
  by_cases h4 : n ≠ s.current_player
  · rw [if_pos h4]
    exact Or.inl rfl
  rw [if_neg h4]
  cases hgp : s.get_player_on_left n with
  | none => exact Or.inl rfl
  | some lp =>
    dsimp only
    by_cases h5 : lp = ""
    · rw [if_pos h5]
      exact Or.inl rfl
    rw [if_neg h5]
    by_cases h6 : (lookup_hand s.players lp).length = 0
    · rw [if_pos h6]
      exact Or.inl rfl
    rw [if_neg h6]
    exact Or.inr ⟨lp, _, _, rfl⟩

theorem take_hand_cards (s : GameSession) (n : String) :
    cards_multiset (s.take_hand_from_left n).2 = cards_multiset s := by
  rcases take_hand_result s n with heq | ⟨m, msg, s', heq⟩
  · rw [heq]
  · obtain ⟨-, -, -, -, hgp, -, hs'⟩ := take_hand_success_eq s n m msg s' heq
    obtain ⟨hmn, -, -⟩ := get_player_on_left_some hgp
    have hnm : n ≠ m := fun e => hmn e.symm
    rw [heq]
    dsimp only
    rw [hs']
    unfold cards_multiset
    dsimp only
    rw [check_game_over_players, check_game_over_current_pile,
      check_game_over_discarded]
    dsimp only
    have e1 := hands_multiset_set s.players n
      (lookup_hand s.players n ++ lookup_hand s.players m)
    rw [show ((lookup_hand s.players n ++ lookup_hand s.players m :
        List Card) : Multiset Card) = (lookup_hand s.players n : Multiset Card)
        + (lookup_hand s.players m : Multiset Card) from
      (Multiset.coe_add _ _).symm] at e1
    have e1c : hands_multiset (set_hand s.players n
        (lookup_hand s.players n ++ lookup_hand s.players m)) =
        hands_multiset s.players +
          (lookup_hand s.players m : Multiset Card) := by
      have := add_right_cancel (a := hands_multiset (set_hand s.players n
        (lookup_hand s.players n ++ lookup_hand s.players m)))
        (b := (lookup_hand s.players n : Multiset Card))
        (c := hands_multiset s.players +
          (lookup_hand s.players m : Multiset Card))
      apply this
      rw [e1]
      ac_rfl
    have e2 := hands_multiset_set (set_hand s.players n
      (lookup_hand s.players n ++ lookup_hand s.players m)) m []
    rw [lookup_set_ne _ hmn, e1c] at e2
    have e2c : hands_multiset (set_hand (set_hand s.players n
        (lookup_hand s.players n ++ lookup_hand s.players m)) m []) =
        hands_multiset s.players := by
      have e3 : hands_multiset (set_hand (set_hand s.players n
          (lookup_hand s.players n ++ lookup_hand s.players m)) m []) +
          (lookup_hand s.players m : Multiset Card) =
          hands_multiset s.players +
            (lookup_hand s.players m : Multiset Card) := by
        rw [e2]
        rw [show (([] : List Card) : Multiset Card) = 0 from rfl, add_zero]
      exact add_right_cancel e3
    have e4 := hands_multiset_set (set_hand (set_hand s.players n
      (lookup_hand s.players n ++ lookup_hand s.players m)) m [])
      n (sort_hand (lookup_hand (set_hand (set_hand s.players n
        (lookup_hand s.players n ++ lookup_hand s.players m)) m []) n))
    rw [coe_sort_hand, e2c] at e4
    have e4c := add_right_cancel e4
    rw [e4c]

/-- C2: immediately after a successful `start_game` from a true lobby state
(all hands empty, empty pile and discard) on a permutation of the fresh deck,
the cards tracked by the session are exactly the 52-card deck, one per
suit-rank pair; and the conserved quantity hands + pile + discard is
preserved by every `play_card` and every `take_hand_from_left`, successful or
not. -/
theorem card_conservation :
    (∀ (s : GameSession) (deck : List Card) (s' : GameSession),
      (∀ p ∈ s.players, p.2 = []) → s.current_pile = [] →
      s.discarded_cards = [] → deck.Perm fresh_deck →
      s.start_game deck = .ok s' →
      cards_multiset s' = (fresh_deck : Multiset Card) ∧
      ∀ c : Card, Multiset.count c (cards_multiset s') = 1) ∧
    (∀ (s : GameSession) (n : String) (c : Card),
      cards_multiset (s.play_card n c).2 = cards_multiset s) ∧
    (∀ (s : GameSession) (n : String),
      cards_multiset (s.take_hand_from_left n).2 = cards_multiset s) := by
  refine ⟨?_, play_card_cards, take_hand_cards⟩
  intro s deck s' hempty hpile hdisc hperm hok
  obtain ⟨h2, heq⟩ := start_game_ok s deck s' hok
  have hpsne : s.players ≠ [] := by
    intro e
    rw [e] at h2
    simp at h2
  have hcm : cards_multiset s' = (fresh_deck : Multiset Card) := by
    rw [heq]
    unfold cards_multiset
    dsimp only
    rw [map_sort_hands, deal_cards_hands deck s.players 0 hpsne,
      hands_multiset_of_empty s.players hempty, hpile, hdisc,
      Multiset.coe_eq_coe.mpr hperm, zero_add]
    rw [show ((List.map Prod.snd ([] : List (String × Card)) : List Card) :
      Multiset Card) = 0 from rfl]
    rw [show (([] : List Card) : Multiset Card) = 0 from rfl, add_zero,
      add_zero]
  exact ⟨hcm, fun c => by rw [hcm, Multiset.coe_count, fresh_deck_count]⟩

/-- Witness for C2: starting the concrete 2-player lobby on the unshuffled
fresh deck yields exactly the 52-card deck across both hands. -/
theorem card_conservation_witness :
    cards_multiset started2 = (fresh_deck : Multiset Card) ∧
    ∀ c : Card, Multiset.count c (cards_multiset started2) = 1 :=
  (card_conservation).1 lobby2 fresh_deck started2 (by decide) rfl rfl
    (List.Perm.refl _) rfl

/-! ### The 2-player break scenario, traced symbolically -/

set_option maxHeartbeats 2000000 in
theorem two_player_break_aux (s : GameSession) (hA hB : List Card)
    (hplayers : s.players = [("A", hA), ("B", hB)])
    (hactive : s.active_players = ["A", "B"])
    (hidx : s.current_player_idx = 0)
    (hpile : s.current_pile = [])
    (hstarted : s.game_started = true)
    (hfin : s.finished = false)
    (hflag : s.game_first_card_played = false)
    (hwin : s.winners = [])
    (hAace : ace_of_spades ∈ hA)
    (hAlen : hA.length = 26)
    (hBlen : hB.length = 26)
    (hBnos : ∀ c ∈ hB, c.suit ≠ Suit.SPADES)
    (hB2h : two_hearts ∈ hB) :
    (s.play_card "A" ace_of_spades).1.1 = true ∧
    (s.play_card "A" ace_of_spades).2.current_suit = some Suit.SPADES ∧
    ((s.play_card "A" ace_of_spades).2.play_card "B" two_hearts).1.1 = true ∧
    (((s.play_card "A" ace_of_spades).2.play_card "B"
        two_hearts).2.suit_was_broken = true) ∧
    (((s.play_card "A" ace_of_spades).2.play_card "B"
        two_hearts).2.resolved_winner = some "A") ∧
    (lookup_hand (((s.play_card "A" ace_of_spades).2.play_card "B"
        two_hearts).2.players) "A").length = 27 ∧
    (lookup_hand (((s.play_card "A" ace_of_spades).2.play_card "B"
        two_hearts).2.players) "B").length = 25 ∧
    ((s.play_card "A" ace_of_spades).2.play_card "B"
        two_hearts).2.current_player = "A" ∧
    ((s.play_card "A" ace_of_spades).2.play_card "B"
        two_hearts).2.current_pile = [] := by
  have hAe : (hA.erase ace_of_spades).length = 25 := by
    rw [List.length_erase_of_mem hAace, hAlen]
  have hBe : (hB.erase two_hearts).length = 25 := by
    rw [List.length_erase_of_mem hB2h, hBlen]
  have hBany : (hB.any fun c => c.suit == Suit.SPADES) = false := by
    rw [List.any_eq_false]
    intro c hc
    simpa using hBnos c hc
  obtain ⟨gid, pl, po, act, idx, pile, cs, os, gs, fin, kaz, win, host, disc,
    rip, flag, rp, rwi, swb, thc, thf, thb, op, cpl, wfp⟩ := s
  dsimp only at hplayers hactive hidx hpile hstarted hfin hflag hwin
  subst hplayers hactive hidx hpile hstarted hfin hflag hwin
  have h1 : GameSession.play_card
      ⟨gid, [("A", hA), ("B", hB)], po, ["A", "B"], 0, [], cs, os, true,
        false, kaz, [], host, disc, rip, false, rp, rwi, swb, thc, thf, thb,
        op, cpl, wfp⟩ "A" ace_of_spades =
      ((true, none),
        ⟨gid, [("A", hA.erase ace_of_spades), ("B", hB)], po, ["A", "B"], 1,
          [("A", ace_of_spades)], some Suit.SPADES, some Suit.SPADES, true,
          false, kaz, [], host, disc, true, true, [], none, swb, [], none,
          none, op, cpl, wfp⟩) := by
    simp +decide [GameSession.play_card, GameSession.play_card_commit,
      GameSession.current_player, GameSession.advance_to_next_active_player,
      lookup_hand_cons, set_hand_cons, hAace, ace_of_spades,
      show ({ suit := Suit.SPADES, rank := Rank.ACE } : Card) ∈ hA from hAace]
  have hs27 : (sort_hand (hA.erase ace_of_spades ++
      [ace_of_spades, two_hearts])).length = 27 := by
    rw [length_sort_hand, List.length_append, hAe]
    rfl
  have hsne : sort_hand (hA.erase ace_of_spades ++
      [ace_of_spades, two_hearts]) ≠ [] := by
    intro e
    rw [e] at hs27
    exact absurd hs27 (by decide)
  have hBerne : hB.erase two_hearts ≠ [] := by
    intro e
    rw [e] at hBe
    exact absurd hBe (by decide)
  have h2 : GameSession.play_card
      ⟨gid, [("A", hA.erase ace_of_spades), ("B", hB)], po, ["A", "B"], 1,
        [("A", ace_of_spades)], some Suit.SPADES, some Suit.SPADES, true,
        false, kaz, [], host, disc, true, true, [], none, swb, [], none,
        none, op, cpl, wfp⟩ "B" two_hearts =
      ((true, none),
        ⟨gid, [("A", sort_hand (hA.erase ace_of_spades ++
            [ace_of_spades, two_hearts])), ("B", hB.erase two_hearts)], po,
          ["A", "B"], 0, [], none, none, true, false, kaz, [], host, disc,
          false, true, [("A", ace_of_spades), ("B", two_hearts)], some "A",
          true, [], none, none, op, cpl, wfp⟩) := by
    simp +decide [GameSession.play_card, GameSession.play_card_commit,
      GameSession.current_player, GameSession.advance_to_next_active_player,
      GameSession.resolve_round, GameSession.check_for_winners, winners_step,
      GameSession.check_game_over, max_by_value, max_step,
      lookup_hand_cons, set_hand_cons, hB2h, hBany, hAe, hBe, hs27, hsne,
      hBerne, show two_hearts.suit = Suit.HEARTS from rfl,
      show ace_of_spades.suit = Suit.SPADES from rfl]
  rw [h1]
  dsimp only
  rw [h2]
  refine ⟨rfl, rfl, rfl, rfl, rfl, ?_, ?_, ?_, rfl⟩
  · dsimp only
    rw [lookup_hand_cons]
    rw [if_pos rfl]
    exact hs27
  · dsimp only
    rw [lookup_hand_cons, if_neg (by simp), lookup_hand_cons, if_pos rfl]
    exact hBe
  · rfl

/-- C1 (amended): in the 2-player scenario (A dealt the Ace of Spades plus
25 others, B the 26 cards left, none of them a spade), A opening with the Ace
of Spades and B answering with the 2 of hearts resolves the round at once
with suit broken, A picking up both pile cards: A then holds 27 cards (26
minus the Ace played plus the two pile cards), B holds 25, and A is the
current player with an empty pile. -/
theorem two_player_scenario (s : GameSession) (hA hB : List Card)
    (hplayers : s.players = [("A", hA), ("B", hB)])
    (hactive : s.active_players = ["A", "B"])
    (hidx : s.current_player_idx = 0)
    (hpile : s.current_pile = [])
    (hstarted : s.game_started = true)
    (hfin : s.finished = false)
    (hflag : s.game_first_card_played = false)
    (hwin : s.winners = [])
    (hAace : ace_of_spades ∈ hA)
    (hAlen : hA.length = 26)
    (hBlen : hB.length = 26)
    (hBnos : ∀ c ∈ hB, c.suit ≠ Suit.SPADES)
    (hB2h : two_hearts ∈ hB) :
    (s.play_card "A" ace_of_spades).1.1 = true ∧
    (s.play_card "A" ace_of_spades).2.current_suit = some Suit.SPADES ∧
    ((s.play_card "A" ace_of_spades).2.play_card "B" two_hearts).1.1 = true ∧
    (((s.play_card "A" ace_of_spades).2.play_card "B"
        two_hearts).2.suit_was_broken = true) ∧
    (((s.play_card "A" ace_of_spades).2.play_card "B"
        two_hearts).2.resolved_winner = some "A") ∧
    (lookup_hand (((s.play_card "A" ace_of_spades).2.play_card "B"
        two_hearts).2.players) "A").length = 27 ∧
    (lookup_hand (((s.play_card "A" ace_of_spades).2.play_card "B"
        two_hearts).2.players) "B").length = 25 ∧
    ((s.play_card "A" ace_of_spades).2.play_card "B"
        two_hearts).2.current_player = "A" ∧
    ((s.play_card "A" ace_of_spades).2.play_card "B"
        two_hearts).2.current_pile = [] :=
  two_player_break_aux s hA hB hplayers hactive hidx hpile hstarted hfin
    hflag hwin hAace hAlen hBlen hBnos hB2h

/-- Counterexample to C1 as stated: on the concrete deal where A holds all
spades and diamonds, after A plays the Ace of Spades and B plays the 2 of
hearts, A's hand has 27 cards, not 26 — the claimed conjunction is false. -/
theorem two_player_scenario_cex :
    ¬((scen0.play_card "A" ace_of_spades).1.1 = true ∧
      (scen1.play_card "B" two_hearts).1.1 = true ∧
      scen2.suit_was_broken = true ∧
      (lookup_hand scen2.players "A").length = 26 ∧
      (lookup_hand scen2.players "B").length = 25 ∧
      scen2.current_player = "A") := by
  intro hcl
  obtain ⟨-, -, -, h26, -, -⟩ := hcl
  obtain ⟨-, -, -, -, -, h27, -, -, -⟩ :=
    two_player_break_aux scen0 scen_handA scen_handB rfl rfl rfl rfl rfl rfl
      rfl rfl (by decide) (by decide) (by decide) (by decide) (by decide)
  rw [show scen2 =
    ((scen0.play_card "A" ace_of_spades).2.play_card "B" two_hearts).2
    from rfl] at h26
  rw [h26] at h27
  exact absurd h27 (by decide)

/-- Witness for the amended C1 at the concrete deal. -/
theorem two_player_scenario_witness :
    (scen0.play_card "A" ace_of_spades).1.1 = true ∧
    (scen0.play_card "A" ace_of_spades).2.current_suit = some Suit.SPADES ∧
    ((scen0.play_card "A" ace_of_spades).2.play_card "B"
        two_hearts).1.1 = true ∧
    (((scen0.play_card "A" ace_of_spades).2.play_card "B"
        two_hearts).2.suit_was_broken = true) ∧
    (((scen0.play_card "A" ace_of_spades).2.play_card "B"
        two_hearts).2.resolved_winner = some "A") ∧
    (lookup_hand (((scen0.play_card "A" ace_of_spades).2.play_card "B"
        two_hearts).2.players) "A").length = 27 ∧
    (lookup_hand (((scen0.play_card "A" ace_of_spades).2.play_card "B"
        two_hearts).2.players) "B").length = 25 ∧
    ((scen0.play_card "A" ace_of_spades).2.play_card "B"
        two_hearts).2.current_player = "A" ∧
    ((scen0.play_card "A" ace_of_spades).2.play_card "B"
        two_hearts).2.current_pile = [] :=
  two_player_scenario scen0 scen_handA scen_handB rfl rfl rfl rfl rfl rfl
    rfl rfl (by decide) (by decide) (by decide) (by decide) (by decide)

/-- Witness for C6: after A led the Ace of Spades, B (no spades in hand)
legally plays the 2 of hearts. -/
theorem suit_following_witness :
    (∀ x ∈ lookup_hand scen1.players "B", x.suit ≠ Suit.SPADES) ∨
      two_hearts.suit = Suit.SPADES :=
  suit_following scen1 "B" two_hearts Suit.SPADES (by decide) (by decide)
    (by decide)

/-- Witness for C8 at a concrete freshly started 2-player game. -/
theorem play_card_first_must_be_ace_witness :
    scen0.play_card "A" ⟨Suit.DIAMONDS, Rank.KING⟩ =
      ((false, some "First card must be Ace of Spades"), scen0) :=
  play_card_first_must_be_ace scen0 "A" ⟨Suit.DIAMONDS, Rank.KING⟩ rfl rfl rfl
    rfl (by decide) (by decide) (by decide)

/-! ### C7: winner placement is monotonic -/

theorem compute_insert_idx_le (order : List String) (oidx : Nat) :
    ∀ l : List String, compute_insert_idx order oidx l ≤ l.length := by
  intro l
  induction l with
  | nil => exact Nat.le_refl 0
  | cons p ps ih =>
    unfold compute_insert_idx
    split_ifs
    · exact Nat.zero_le _
    · exact Nat.succ_le_succ ih

theorem lookup_hand_filter (ps : List (String × List Card)) (n q : String) :
    lookup_hand (ps.filter (fun p => p.1 != n)) q =
      if q = n then [] else lookup_hand ps q := by
  induction ps with
  | nil =>
    simp only [List.filter_nil, lookup_hand_nil]
    split_ifs <;> rfl
  | cons p ps ih =>
    by_cases hpn : p.1 = n
    · rw [List.filter_cons, if_neg (by simp [hpn]), ih, lookup_hand_cons]
      split_ifs with h1 h2
      · rfl
      · exact absurd (h2.symm.trans hpn) h1
      · rfl
    · rw [List.filter_cons, if_pos (by simp [hpn])]
      simp only [lookup_hand_cons, ih]
      split_ifs with h1 h2 <;> first | rfl | exact absurd (h1.trans h2) hpn

theorem foldl_winners_step_inv (l : List String) :
    ∀ acc : GameSession, acc.active_players.Nodup →
    (∀ p ∈ acc.winners, lookup_hand acc.players p = []) →
    (∀ p ∈ acc.winners, p ∉ acc.active_players) →
    (l.foldl winners_step acc).active_players.Nodup ∧
    (∀ p ∈ (l.foldl winners_step acc).winners,
        lookup_hand acc.players p = []) ∧
    (∀ p ∈ (l.foldl winners_step acc).winners,
        p ∉ (l.foldl winners_step acc).active_players) ∧
    (∀ p ∈ acc.winners, p ∈ (l.foldl winners_step acc).winners) ∧
    (∀ p ∈ (l.foldl winners_step acc).active_players,
        p ∈ acc.active_players) := by
  induction l with
  | nil =>
    intro acc hnd hw hwa
    exact ⟨hnd, hw, hwa, fun p hp => hp, fun p hp => hp⟩
  | cons x xs ih =>
    intro acc hnd hw hwa
    rw [List.foldl_cons]
    by_cases hc : (lookup_hand acc.players x).length = 0 ∧ x ∉ acc.winners
    · rw [show winners_step acc x = { acc with
          winners := acc.winners ++ [x],
          active_players := acc.active_players.erase x } from by
        unfold winners_step; rw [if_pos hc]]
      have hw' : ∀ p ∈ acc.winners ++ [x], lookup_hand acc.players p = [] := by
        intro p hp
        rcases List.mem_append.mp hp with hp | hp
        · exact hw p hp
        · rw [List.mem_singleton.mp hp]
          exact List.length_eq_zero.mp hc.1
      have hwa' : ∀ p ∈ acc.winners ++ [x],
          p ∉ acc.active_players.erase x := by
        intro p hp hmem
        rcases List.mem_append.mp hp with hp | hp
        · exact hwa p hp (List.mem_of_mem_erase hmem)
        · rw [List.mem_singleton.mp hp] at hmem
          exact hnd.not_mem_erase hmem
      obtain ⟨i1, i2, i3, i4, i5⟩ := ih { acc with
          winners := acc.winners ++ [x],
          active_players := acc.active_players.erase x }
        (hnd.erase x) hw' hwa'
      refine ⟨i1, i2, i3, ?_, ?_⟩
      · intro p hp
        exact i4 p (List.mem_append.mpr (Or.inl hp))
      · intro p hp
        exact List.mem_of_mem_erase (i5 p hp)
    · rw [show winners_step acc x = acc from by
        unfold winners_step; rw [if_neg hc]]
      exact ih acc hnd hw hwa

theorem check_for_winners_inv (s : GameSession)
    (hnd : s.active_players.Nodup)
    (hw : ∀ p ∈ s.winners, lookup_hand s.players p = [])
    (hwa : ∀ p ∈ s.winners, p ∉ s.active_players) :
    s.check_for_winners.active_players.Nodup ∧
    (∀ p ∈ s.check_for_winners.winners, lookup_hand s.players p = []) ∧
    (∀ p ∈ s.check_for_winners.winners,
        p ∉ s.check_for_winners.active_players) ∧
    (∀ p ∈ s.winners, p ∈ s.check_for_winners.winners) ∧
    (∀ p ∈ s.check_for_winners.active_players, p ∈ s.active_players) := by
  unfold GameSession.check_for_winners
  exact foldl_winners_step_inv s.active_players s hnd hw hwa

theorem take_hand_guard (s : GameSession) (n m msg : String) (s' : GameSession)
    (h : s.take_hand_from_left n = ((true, msg, some m), s')) :
    ¬(s.round_in_progress ∧ 0 < s.current_pile.length) := by
  intro hg
  unfold GameSession.take_hand_from_left at h
  by_cases h1 : ¬s.game_started ∨ s.finished
  · rw [if_pos h1] at h
    simp at h
  · rw [if_neg h1, if_pos hg] at h
    simp at h

theorem remove_player_winners (s : GameSession) (n : String)
    (hInv : WinnersInv s) :
    WinnersInv (s.remove_player n) ∧
    ∀ p ∈ s.winners, p ∈ (s.remove_player n).winners := by
  obtain ⟨hnd, hw, hwa, hpw, hrip⟩ := hInv
  unfold GameSession.remove_player
  dsimp only
  split_ifs with h1 h2 h3 <;>
    first
      | exact ⟨⟨hnd, hw, hwa, hpw, hrip⟩, fun p hp => hp⟩
      | (refine ⟨⟨hnd, fun p hp => ?_, hwa, hpw, hrip⟩, fun p hp => hp⟩
         rw [lookup_hand_filter]
         split_ifs with hq <;> first | rfl | exact hw p hp)

theorem player_reconnected_winners (s : GameSession) (n : String)
    (hInv : WinnersInv s) :
    WinnersInv (s.player_reconnected n) ∧
    ∀ p ∈ s.winners, p ∈ (s.player_reconnected n).winners := by
  obtain ⟨hnd, hw, hwa, hpw, hrip⟩ := hInv
  unfold GameSession.player_reconnected
  dsimp only
  by_cases h1 : n ∈ s.players.map Prod.fst ∧
      0 < (lookup_hand s.players n).length
  · rw [if_pos h1]
    by_cases h2 : n ∉ s.active_players
    · rw [if_pos h2]
      have hle : compute_insert_idx s.player_order
          (s.player_order.indexOf n) s.active_players ≤
          s.active_players.length :=
        compute_insert_idx_le _ _ _
      have hperm : (s.active_players.insertIdx (compute_insert_idx
          s.player_order (s.player_order.indexOf n) s.active_players)
          n).Perm (n :: s.active_players) :=
        List.perm_insertIdx _ _ hle
      have hndA : (s.active_players.insertIdx (compute_insert_idx
          s.player_order (s.player_order.indexOf n) s.active_players)
          n).Nodup :=
        hperm.nodup_iff.mpr (List.nodup_cons.mpr ⟨h2, hnd⟩)
      have hnw : n ∉ s.winners := by
        intro hc
        have h0 := hw n hc
        rw [h0] at h1
        exact absurd h1.2 (by simp)
      have hwaA : ∀ p ∈ s.winners,
          p ∉ s.active_players.insertIdx (compute_insert_idx
            s.player_order (s.player_order.indexOf n) s.active_players) n := by
        intro p hp hmem
        rcases List.mem_cons.mp (hperm.mem_iff.mp hmem) with e | e
        · exact hnw (e ▸ hp)
        · exact hwa p hp e
      split_ifs <;> exact ⟨⟨hndA, hw, hwaA, hpw, hrip⟩, fun p hp => hp⟩
    · rw [if_neg h2]
      split_ifs <;> exact ⟨⟨hnd, hw, hwa, hpw, hrip⟩, fun p hp => hp⟩
  · rw [if_neg h1]
    split_ifs <;> exact ⟨⟨hnd, hw, hwa, hpw, hrip⟩, fun p hp => hp⟩

theorem resolve_round_mid_eq (s : GameSession) (b : Bool) (r : String × Card)
    (hne : s.current_pile ≠ [])
    (hmax : max_by_value (s.current_pile.filter
      (fun pc => some pc.2.suit == s.original_suit)) = some r) :
    ∃ i f k, s.resolve_round b =
      { (resolve_mid s r.1 b).check_for_winners with
        current_player_idx := i, finished := f, kazhutha := k } := by
  unfold GameSession.resolve_round
  rw [if_neg (by simpa [List.isEmpty_iff] using hne)]
  dsimp only
  rw [hmax]
  dsimp only
  cases b with
  | true =>
    rw [if_pos (rfl : (true : Bool) = true)]
    rw [show ({ s with
        players := (set_hand s.players r.1 (sort_hand
          (lookup_hand s.players r.1 ++ s.current_pile.map Prod.snd))),
        resolved_pile := s.current_pile, resolved_winner := some r.1,
        suit_was_broken := true, current_pile := [], current_suit := none,
        original_suit := none, round_in_progress := false } : GameSession) =
      resolve_mid s r.1 true from rfl]
    by_cases hwin : r.1 ∈ (resolve_mid s r.1 true).check_for_winners.active_players
    · rw [if_pos hwin]
      obtain ⟨f, k, hcg⟩ := check_game_over_eq
        { (resolve_mid s r.1 true).check_for_winners with
          current_player_idx := (resolve_mid s r.1
            true).check_for_winners.active_players.indexOf r.1 }
      rw [hcg]
      exact ⟨_, f, k, rfl⟩
    · rw [if_neg hwin]
      cases hfa : find_next_active
          (resolve_mid s r.1 true).check_for_winners.player_order
          (resolve_mid s r.1 true).check_for_winners.active_players
          ((resolve_mid s r.1 true).check_for_winners.player_order.indexOf
            r.1) with
      | some j =>
        dsimp only
        obtain ⟨f, k, hcg⟩ := check_game_over_eq
          { (resolve_mid s r.1 true).check_for_winners with
            current_player_idx := j }
        rw [hcg]
        exact ⟨j, f, k, rfl⟩
      | none =>
        dsimp only
        obtain ⟨f, k, hcg⟩ := check_game_over_eq
          (resolve_mid s r.1 true).check_for_winners
        rw [hcg]
        exact ⟨(resolve_mid s r.1
          true).check_for_winners.current_player_idx, f, k, rfl⟩
  | false =>
    rw [if_neg (by simp : ¬((false : Bool) = true))]
    rw [show ({ s with
        discarded_cards := (s.discarded_cards ++ s.current_pile.map Prod.snd),
        resolved_pile := s.current_pile, resolved_winner := some r.1,
        suit_was_broken := false, current_pile := [], current_suit := none,
        original_suit := none, round_in_progress := false } : GameSession) =
      resolve_mid s r.1 false from rfl]
    by_cases hwin : r.1 ∈ (resolve_mid s r.1 false).check_for_winners.active_players
    · rw [if_pos hwin]
      obtain ⟨f, k, hcg⟩ := check_game_over_eq
        { (resolve_mid s r.1 false).check_for_winners with
          current_player_idx := (resolve_mid s r.1
            false).check_for_winners.active_players.indexOf r.1 }
      rw [hcg]
      exact ⟨_, f, k, rfl⟩
    · rw [if_neg hwin]
      cases hfa : find_next_active
          (resolve_mid s r.1 false).check_for_winners.player_order
          (resolve_mid s r.1 false).check_for_winners.active_players
          ((resolve_mid s r.1 false).check_for_winners.player_order.indexOf
            r.1) with
      | some j =>
        dsimp only
        obtain ⟨f, k, hcg⟩ := check_game_over_eq
          { (resolve_mid s r.1 false).check_for_winners with
            current_player_idx := j }
        rw [hcg]
        exact ⟨j, f, k, rfl⟩
      | none =>
        dsimp only
        obtain ⟨f, k, hcg⟩ := check_game_over_eq
          (resolve_mid s r.1 false).check_for_winners
        rw [hcg]
        exact ⟨(resolve_mid s r.1
          false).check_for_winners.current_player_idx, f, k, rfl⟩

theorem resolve_round_winners (s : GameSession) (b : Bool)
    (hnd : s.active_players.Nodup)
    (hw : ∀ p ∈ s.winners, lookup_hand s.players p = [])
    (hwa : ∀ p ∈ s.winners, p ∉ s.active_players)
    (hpw : ∀ pc ∈ s.current_pile, pc.1 ∉ s.winners) :
    s.resolve_round b = s ∨
    ((s.resolve_round b).active_players.Nodup ∧
     (∀ p ∈ (s.resolve_round b).winners,
        lookup_hand (s.resolve_round b).players p = []) ∧
     (∀ p ∈ (s.resolve_round b).winners,
        p ∉ (s.resolve_round b).active_players) ∧
     (∀ p ∈ s.winners, p ∈ (s.resolve_round b).winners) ∧
     (s.resolve_round b).current_pile = []) := by
  by_cases hne : s.current_pile = []
  · left
    unfold GameSession.resolve_round
    rw [if_pos (by simp [hne] : s.current_pile.isEmpty = true)]
  · cases hm : max_by_value (s.current_pile.filter
        (fun pc => some pc.2.suit == s.original_suit)) with
    | none =>
      left
      unfold GameSession.resolve_round
      rw [if_neg (by simpa [List.isEmpty_iff] using hne)]
      dsimp only
      rw [hm]
    | some r =>
      right
      have hfil : s.current_pile.filter
          (fun pc => some pc.2.suit == s.original_suit) ≠ [] := by
        intro e
        rw [e] at hm
        simp [max_by_value] at hm
      obtain ⟨r', hmax', hmem', -⟩ := max_by_value_spec _ hfil
      rw [hm] at hmax'
      have hrr := Option.some.inj hmax'
      subst hrr
      have hrp : r ∈ s.current_pile := List.mem_of_mem_filter hmem'
      have hrw : r.1 ∉ s.winners := hpw r hrp
      obtain ⟨i, f, k, heq⟩ := resolve_round_mid_eq s b r hne hm
      rw [heq]
      have hmA : (resolve_mid s r.1 b).active_players = s.active_players := by
        cases b <;> rfl
      have hmW : (resolve_mid s r.1 b).winners = s.winners := by
        cases b <;> rfl
      have hmPile : (resolve_mid s r.1 b).current_pile = [] := by
        cases b <;> rfl
      have hmP : ∀ p ∈ s.winners,
          lookup_hand (resolve_mid s r.1 b).players p = [] := by
        intro p hp
        cases b with
        | false => exact hw p hp
        | true =>
          have hpr : p ≠ r.1 := fun e => hrw (e ▸ hp)
          show lookup_hand (set_hand s.players r.1 (sort_hand
            (lookup_hand s.players r.1 ++
              s.current_pile.map Prod.snd))) p = []
          rw [lookup_set_ne _ hpr]
          exact hw p hp
      obtain ⟨c1, c2, c3, c4, c5⟩ := check_for_winners_inv
        (resolve_mid s r.1 b)
        (by rw [hmA]; exact hnd)
        (by intro p hp; rw [hmW] at hp; exact hmP p hp)
        (by intro p hp; rw [hmW] at hp; rw [hmA]; exact hwa p hp)
      refine ⟨c1, ?_, c3, ?_, ?_⟩
      · intro p hp
        rw [show ({ (resolve_mid s r.1 b).check_for_winners with
            current_player_idx := i, finished := f, kazhutha := k } :
          GameSession).players = (resolve_mid s r.1 b).players from
          check_for_winners_players _]
        exact c2 p hp
      · intro p hp
        exact c4 p (by rw [hmW]; exact hp)
      · exact (check_for_winners_current_pile _).trans hmPile

theorem play_card_commit_winners (t : GameSession) (n : String) (c : Card)
    (ph : List Card)
    (hnd : t.active_players.Nodup)
    (hw : ∀ p ∈ t.winners, lookup_hand t.players p = [])
    (hwa : ∀ p ∈ t.winners, p ∉ t.active_players)
    (hpw : ∀ pc ∈ t.current_pile, pc.1 ∉ t.winners)
    (hact : n ∈ t.active_players)
    (hrip : t.round_in_progress = true) :
    WinnersInv (t.play_card_commit n c ph).2 ∧
    ∀ p ∈ t.winners, p ∈ (t.play_card_commit n c ph).2.winners := by
  have hnw : n ∉ t.winners := fun hn => hwa n hn hact
  have hw1 : ∀ p ∈ t.winners,
      lookup_hand (set_hand t.players n (ph.erase c)) p = [] := by
    intro p hp
    have hpn : p ≠ n := fun e => hnw (e ▸ hp)
    rw [lookup_set_ne _ hpn]
    exact hw p hp
  have hpw1 : ∀ pc ∈ t.current_pile ++ [(n, c)], pc.1 ∉ t.winners := by
    intro pc hpc
    rcases List.mem_append.mp hpc with h | h
    · exact hpw pc h
    · rw [List.mem_singleton.mp h]
      exact hnw
  unfold GameSession.play_card_commit
  dsimp only
  by_cases hos : some c.suit ≠ t.original_suit
  · rw [if_pos hos]
    dsimp only
    rcases resolve_round_winners { t with
        players := (set_hand t.players n (ph.erase c)),
        current_pile := t.current_pile ++ [(n, c)] } true
        hnd hw1 hwa hpw1 with heq | ⟨i1, i2, i3, i4, i5⟩
    · rw [heq]
      exact ⟨⟨hnd, hw1, hwa, hpw1, fun _ => hrip⟩, fun p hp => hp⟩
    · refine ⟨⟨i1, i2, i3, ?_, ?_⟩, fun p hp => i4 p hp⟩
      · intro pc hpc
        rw [i5] at hpc
        exact absurd hpc (List.not_mem_nil pc)
      · intro hne
        exact absurd i5 hne
  · rw [if_neg hos]
    by_cases hdd : (((t.current_pile ++ [(n, c)]).map Prod.fst).dedup).length
        = t.active_players.length
    · rw [if_pos hdd]
      dsimp only
      rcases resolve_round_winners { t with
          players := (set_hand t.players n (ph.erase c)),
          current_pile := t.current_pile ++ [(n, c)] } false
          hnd hw1 hwa hpw1 with heq | ⟨i1, i2, i3, i4, i5⟩
      · rw [heq]
        exact ⟨⟨hnd, hw1, hwa, hpw1, fun _ => hrip⟩, fun p hp => hp⟩
      · refine ⟨⟨i1, i2, i3, ?_, ?_⟩, fun p hp => i4 p hp⟩
        · intro pc hpc
          rw [i5] at hpc
          exact absurd hpc (List.not_mem_nil pc)
        · intro hne
          exact absurd i5 hne
    · rw [if_neg hdd]
      dsimp only
      obtain ⟨i, hadv⟩ := advance_eq { t with
        players := (set_hand t.players n (ph.erase c)),
        current_pile := t.current_pile ++ [(n, c)] }
      rw [hadv]
      exact ⟨⟨hnd, hw1, hwa, hpw1, fun _ => hrip⟩, fun p hp => hp⟩

theorem play_card_winners (s : GameSession) (n : String) (c : Card)
    (hInv : WinnersInv s) :
    WinnersInv (s.play_card n c).2 ∧
    ∀ p ∈ s.winners, p ∈ (s.play_card n c).2.winners := by
  obtain ⟨hnd, hw, hwa, hpw, hrip⟩ := hInv
  unfold GameSession.play_card
  by_cases h1 : ¬s.game_started ∨ s.finished
  · rw [if_pos h1]
    exact ⟨⟨hnd, hw, hwa, hpw, hrip⟩, fun p hp => hp⟩
  rw [if_neg h1]
  by_cases h2 : n ≠ s.current_player
  · rw [if_pos h2]
    exact ⟨⟨hnd, hw, hwa, hpw, hrip⟩, fun p hp => hp⟩
  rw [if_neg h2]
  by_cases h3 : n ∉ s.active_players
  · rw [if_pos h3]
    exact ⟨⟨hnd, hw, hwa, hpw, hrip⟩, fun p hp => hp⟩
  rw [if_neg h3]
  rw [not_not] at h3
  dsimp only
  by_cases h4 : c ∉ lookup_hand s.players n
  · rw [if_pos h4]
    exact ⟨⟨hnd, hw, hwa, hpw, hrip⟩, fun p hp => hp⟩
  rw [if_neg h4]
  by_cases h5 : ¬s.game_first_card_played = true ∧
      (c.suit ≠ Suit.SPADES ∨ c.rank ≠ Rank.ACE)
  · rw [if_pos h5]
    exact ⟨⟨hnd, hw, hwa, hpw, hrip⟩, fun p hp => hp⟩
  rw [if_neg h5]
  generalize hT : (if ¬s.game_first_card_played = true then
    { s with game_first_card_played := true } else s) = T
  have hTpile : T.current_pile = s.current_pile := by
    rw [← hT]
    by_cases hf : s.game_first_card_played <;> simp [hf]
  have hTactive : T.active_players = s.active_players := by
    rw [← hT]
    by_cases hf : s.game_first_card_played <;> simp [hf]
  have hTwin : T.winners = s.winners := by
    rw [← hT]
    by_cases hf : s.game_first_card_played <;> simp [hf]
  have hTi : WinnersInv T := by
    rw [← hT]
    by_cases hf : s.game_first_card_played <;> simp [hf] <;>
      exact ⟨hnd, hw, hwa, hpw, hrip⟩
  obtain ⟨t1, t2, t3, t4, t5⟩ := hTi
  by_cases hpe : T.current_pile.isEmpty = true
  · rw [if_pos hpe]
    dsimp only
    by_cases hg : (((lookup_hand s.players n).any fun x => x.suit == c.suit)
        && (c.suit != c.suit)) = true
    · rw [if_pos hg]
      exact ⟨⟨t1, t2, t3, t4, fun _ => rfl⟩,
        fun p hp => hTwin.symm ▸ hp⟩
    · rw [if_neg hg]
      have hres := play_card_commit_winners { T with
          original_suit := some c.suit, current_suit := some c.suit,
          round_in_progress := true, resolved_pile := [],
          resolved_winner := none, taken_hand_cards := [],
          taken_hand_from := none, taken_hand_by := none } n c
        (lookup_hand s.players n) t1 t2 t3 t4
        (hTactive.symm ▸ h3) rfl
      exact ⟨hres.1, fun p hp => hres.2 p (hTwin.symm ▸ hp)⟩
  · rw [if_neg hpe]
    have hpne : T.current_pile ≠ [] := fun e => hpe (by rw [e]; rfl)
    cases hcs : T.current_suit with
    | none =>
      dsimp only
      have hres := play_card_commit_winners T n c (lookup_hand s.players n)
        t1 t2 t3 t4 (hTactive.symm ▸ h3) (t5 hpne)
      exact ⟨hres.1, fun p hp => hres.2 p (hTwin.symm ▸ hp)⟩
    | some cs =>
      dsimp only
      by_cases hg : (((lookup_hand s.players n).any fun x => x.suit == cs)
          && (c.suit != cs)) = true
      · rw [if_pos hg]
        exact ⟨⟨t1, t2, t3, t4, t5⟩, fun p hp => hTwin.symm ▸ hp⟩
      · rw [if_neg hg]
        have hres := play_card_commit_winners T n c (lookup_hand s.players n)
          t1 t2 t3 t4 (hTactive.symm ▸ h3) (t5 hpne)
        exact ⟨hres.1, fun p hp => hres.2 p (hTwin.symm ▸ hp)⟩

theorem take_hand_winners (s : GameSession) (n : String)
    (hInv : WinnersInv s) :
    WinnersInv (s.take_hand_from_left n).2 ∧
    ∀ p ∈ s.winners, p ∈ (s.take_hand_from_left n).2.winners := by
  obtain ⟨hnd, hw, hwa, hpw, hrip⟩ := hInv
  rcases take_hand_result s n with heq | ⟨m, msg, s', heq⟩
  · rw [heq]
    exact ⟨⟨hnd, hw, hwa, hpw, hrip⟩, fun p hp => hp⟩
  · have hpile : s.current_pile = [] := by
      by_contra hne
      exact take_hand_guard s n m msg s' heq
        ⟨hrip hne, List.length_pos.mpr hne⟩
    obtain ⟨-, -, -, hact, hgp, hm0, hs'⟩ := take_hand_success_eq s n m msg s' heq
    obtain ⟨hmn, hmact, -⟩ := get_player_on_left_some hgp
    have hnm : n ≠ m := fun e => hmn e.symm
    have hnw : n ∉ s.winners := fun hc => hwa n hc hact
    have hmw : m ∉ s.winners := fun hc => hwa m hc hmact
    rw [heq]
    dsimp only
    rw [hs']
    refine ⟨⟨?_, ?_, ?_, ?_, ?_⟩, ?_⟩
    · dsimp only
      rw [check_game_over_active]
      dsimp only
      exact hnd.erase m
    · dsimp only
      rw [check_game_over_players, check_game_over_winners]
      dsimp only
      intro p hp
      rcases List.mem_append.mp hp with hp | hp
      · have hpn : p ≠ n := fun e => hnw (e ▸ hp)
        have hpm : p ≠ m := fun e => hmw (e ▸ hp)
        rw [lookup_set_ne _ hpn, lookup_set_ne _ hpm, lookup_set_ne _ hpn]
        exact hw p hp
      · rw [List.mem_singleton.mp hp, lookup_set_ne _ hmn, lookup_set_self]
    · dsimp only
      rw [check_game_over_winners, check_game_over_active]
      dsimp only
      intro p hp hmem
      rcases List.mem_append.mp hp with hp | hp
      · exact hwa p hp (List.mem_of_mem_erase hmem)
      · rw [List.mem_singleton.mp hp] at hmem
        exact hnd.not_mem_erase hmem
    · intro pc hpc
      dsimp only at hpc
      rw [check_game_over_current_pile] at hpc
      dsimp only at hpc
      rw [hpile] at hpc
      exact absurd hpc (List.not_mem_nil pc)
    · intro hne2
      refine absurd ?_ hne2
      dsimp only
      rw [check_game_over_current_pile]
      dsimp only
      exact hpile
    · dsimp only
      rw [check_game_over_winners]
      dsimp only
      exact fun p hp => List.mem_append.mpr (Or.inl hp)

/-- C7: on any session satisfying the reachable-state well-formedness
`WinnersInv`, each of the four operations `play_card`, `take_hand_from_left`,
`remove_player` and `player_reconnected` preserves `WinnersInv`, keeps every
recorded winner recorded, and leaves every recorded winner outside
`active_players` — so once a name has been appended to `winners`, no
subsequent operation ever re-inserts it into `active_players`, and
winner-placement order is monotonic. -/
theorem winners_monotone (s : GameSession) (hInv : WinnersInv s) :
    (∀ (n : String) (c : Card), WinnersInv (s.play_card n c).2 ∧
      ∀ p ∈ s.winners, p ∈ (s.play_card n c).2.winners ∧
        p ∉ (s.play_card n c).2.active_players) ∧
    (∀ n : String, WinnersInv (s.take_hand_from_left n).2 ∧
      ∀ p ∈ s.winners, p ∈ (s.take_hand_from_left n).2.winners ∧
        p ∉ (s.take_hand_from_left n).2.active_players) ∧
    (∀ n : String, WinnersInv (s.remove_player n) ∧
      ∀ p ∈ s.winners, p ∈ (s.remove_player n).winners ∧
        p ∉ (s.remove_player n).active_players) ∧
    (∀ n : String, WinnersInv (s.player_reconnected n) ∧
      ∀ p ∈ s.winners, p ∈ (s.player_reconnected n).winners ∧
        p ∉ (s.player_reconnected n).active_players) := by
  refine ⟨fun n c => ?_, fun n => ?_, fun n => ?_, fun n => ?_⟩
  · obtain ⟨hI, hm⟩ := play_card_winners s n c hInv
    exact ⟨hI, fun p hp => ⟨hm p hp, hI.2.2.1 p (hm p hp)⟩⟩
  · obtain ⟨hI, hm⟩ := take_hand_winners s n hInv
    exact ⟨hI, fun p hp => ⟨hm p hp, hI.2.2.1 p (hm p hp)⟩⟩
  · obtain ⟨hI, hm⟩ := remove_player_winners s n hInv
    exact ⟨hI, fun p hp => ⟨hm p hp, hI.2.2.1 p (hm p hp)⟩⟩
  · obtain ⟨hI, hm⟩ := player_reconnected_winners s n hInv
    exact ⟨hI, fun p hp => ⟨hm p hp, hI.2.2.1 p (hm p hp)⟩⟩

/-- Witness for C7: in the concrete 3-player session where W has already won,
after A seizes B's hand the winner W is still recorded, is still not active,
and the well-formedness invariant still holds. -/
theorem winners_monotone_witness :
    WinnersInv (wstate.take_hand_from_left "A").2 ∧
    "W" ∈ (wstate.take_hand_from_left "A").2.winners ∧
    "W" ∉ (wstate.take_hand_from_left "A").2.active_players := by
  obtain ⟨-, h2, -, -⟩ := winners_monotone wstate
    ⟨by decide, by decide, by decide, by decide, by decide⟩
  obtain ⟨hI, hm⟩ := h2 "A"
  obtain ⟨ha, hb⟩ := hm "W" (by decide)
  exact ⟨hI, ha, hb⟩

end Kazhutha
